import Mathlib

/-!
Verification development for `src/librustc_trans/debuginfo/create_scope_map.rs`.

The file builds a shallow embedding of the two scope-resolution drivers:

* the AST scope walker (`create_scope_map`, `with_new_scope`, `walk_block`,
  `walk_decl`, `walk_pattern`, `walk_expr`), which walks a function's
  parameters and body in execution order, maintains an explicit scope stack
  and records one scope-map entry per visited node; and
* the MIR scope resolver (`create_mir_scopes`, `make_mir_scope`), which
  resolves a parent-linked scope tree into handles, eliding variable-free
  scopes.

Modelling conventions:

* `DIScope` handles are natural numbers.  The backend primitive
  `LLVMDIBuilderCreateLexicalBlock` is external; it is modelled as drawing a
  fresh number from a counter and logging the call `(handle, parent, span)`.
  Handle equality is identity equality, and distinct creation calls return
  distinct handles, exactly as for the opaque backend pointers.
* Spans, file metadata and source locations are opaque to this code
  (external collaborators); a span is a bare `Nat` and the
  file/line/column split is dropped since only the creation calls observe it.
* `NodeMap::insert` calls are recorded as an insertion log (most recent
  first); `scopeMapLookup` returns the most recent insert for a key, which
  is the hash-map overwrite semantics.
* `span_bug!` aborts compilation of the function; the walk therefore runs
  in `Except Nat` and the error value is the span passed to `span_bug!`.
* `pat_is_binding` consults the externally supplied definition map; it is
  modelled as a boolean field carried on the `ident` pattern node.
* Names (`ast::Name` after `unhygienize()`) are strings: the raw textual
  identifier, already stripped of hygiene information.
-/

/-- One entry of the walker's scope stack (`struct ScopeStackEntry`):
the handle and, for synthetic shadow entries, the bound name. -/
structure ScopeStackEntry where
  scope_metadata : Nat
  name : Option String
deriving DecidableEq, Repr

instance : Inhabited ScopeStackEntry := ⟨⟨0, none⟩⟩

/-- The mutable state threaded through the AST walk: the fresh-handle
counter, the log of backend scope-creation calls (handle, parent, span),
the scope stack (head = top of stack = `last()` of the Rust `Vec`), and the
scope-map insertion log (head = most recent insert). -/
structure WalkState where
  counter : Nat
  created : List (Nat × Nat × Nat)
  scope_stack : List ScopeStackEntry
  scope_map : List (Nat × Nat)
deriving DecidableEq, Repr

/-- The backend primitive `LLVMDIBuilderCreateLexicalBlock`: returns a fresh
handle (never seen before) and logs the call. -/
def createLexicalBlock (parent_scope span : Nat) (s : WalkState) : Nat × WalkState :=
  (s.counter,
   { s with counter := s.counter + 1,
            created := (s.counter, parent_scope, span) :: s.created })

/-- `scope_stack.last().unwrap()` of the Rust `Vec`, i.e. the top of stack. -/
def stackTop (stack : List ScopeStackEntry) : ScopeStackEntry :=
  stack.headI

/-- The scope-closing loop of `with_new_scope`:
`while scope_stack.last().unwrap().name.is_some() { scope_stack.pop(); }`. -/
def popArtificial : List ScopeStackEntry → List ScopeStackEntry
  | [] => []
  | e :: rest => if e.name.isSome then popArtificial rest else e :: rest

/-- `scope_map.insert(id, scope)` as an insertion-log prepend. -/
def mapInsert (id scope : Nat) (s : WalkState) : WalkState :=
  { s with scope_map := (id, scope) :: s.scope_map }

/-- The handle recorded for a node id: the most recent insert wins
(hash-map overwrite semantics). -/
def scopeMapLookup (m : List (Nat × Nat)) (id : Nat) : Option Nat :=
  (m.find? (fun e => e.1 = id)).map (·.2)

/-- Keys of the scope-map insertion log, most recent first. -/
def mapKeys (s : WalkState) : List Nat :=
  s.scope_map.map Prod.fst

mutual

/-- `hir::Pat` restricted to the fields `walk_pattern` reads.  Every node
carries its `NodeId` and (for `ident`, whose span feeds artificial-scope
creation and whose leading position names a match arm's span) a span.
`isBinding` is the externally decided `pat_util::pat_is_binding` answer;
`name` is the unhygienized identifier text. -/
inductive Pat where
  | ident (id span : Nat) (name : String) (isBinding : Bool) (subPat : Option Pat)
  | wild (id : Nat)
  | tupleStruct (id : Nat) (subPats : Option (List Pat))
  | pathP (id : Nat)
  | qpath (id : Nat)
  | structP (id : Nat) (fieldPats : List Pat)
  | tup (id : Nat) (subPats : List Pat)
  | boxP (id : Nat) (subPat : Pat)
  | ref (id : Nat) (subPat : Pat)
  | lit (id : Nat) (e : Expr)
  | range (id : Nat) (e1 e2 : Expr)
  | vec (id : Nat) (front : List Pat) (middle : Option Pat) (back : List Pat)

/-- `hir::Expr` restricted to the fields `walk_expr` reads: the node id and
the sub-structure walked, with a constructor per `hir::Expr_` variant. -/
inductive Expr where
  | lit (id : Nat)
  | breakE (id : Nat)
  | againE (id : Nat)
  | pathE (id : Nat)
  | cast (id : Nat) (sub : Expr)
  | typeAsc (id : Nat) (sub : Expr)
  | addrOf (id : Nat) (sub : Expr)
  | field (id : Nat) (sub : Expr)
  | tupField (id : Nat) (sub : Expr)
  | boxE (id : Nat) (sub : Expr)
  | ret (id : Nat) (sub : Option Expr)
  | unary (id : Nat) (sub : Expr)
  | assignOp (id : Nat) (lhs rhs : Expr)
  | index (id : Nat) (lhs rhs : Expr)
  | binary (id : Nat) (lhs rhs : Expr)
  | vecE (id : Nat) (inits : List Expr)
  | tupE (id : Nat) (inits : List Expr)
  | assign (id : Nat) (e1 e2 : Expr)
  | repeatE (id : Nat) (e1 e2 : Expr)
  | ifE (id : Nat) (cond : Expr) (thenBlock : Block) (elseExp : Option Expr)
  | whileE (id : Nat) (cond : Expr) (loopBody : Block)
  | loopE (id : Nat) (body : Block)
  | blockE (id : Nat) (body : Block)
  | closure (id : Nat) (inputs : List Pat) (body : Block)
  | call (id : Nat) (fnExp : Expr) (args : List Expr)
  | methodCall (id : Nat) (args : List Expr)
  | matchE (id : Nat) (discriminant : Expr) (arms : List Arm)
  | structE (id : Nat) (fields : List Expr) (base : Option Expr)
  | inlineAsm (id : Nat) (outputs : List Expr) (inputs : List Expr)

/-- A `hir::Arm`: the alternative patterns, the optional guard and the body. -/
inductive Arm where
  | mk (pats : List Pat) (guard : Option Expr) (body : Expr)

/-- A `hir::Block`: its node id, span, statements and trailing expression. -/
inductive Block where
  | mk (id span : Nat) (stmts : List Stmt) (expr : Option Expr)

/-- A `hir::Stmt`: `statement.node.id()` is the statement's own id. -/
inductive Stmt where
  | decl (id : Nat) (d : Decl)
  | exprS (id : Nat) (e : Expr)
  | semi (id : Nat) (e : Expr)

/-- A `hir::Decl`: a local (`let`) with its id, pattern and optional
initializer, or an item declaration (ignored by `walk_decl`). -/
inductive Decl where
  | local (id : Nat) (pat : Pat) (init : Option Expr)
  | item

end

instance : Inhabited Pat := ⟨.wild 0⟩

/-- The span of a pattern (`pat.span`); only `ident` patterns feed their
span into scope creation or arm spans in this walker, the other variants
default to `0`. -/
def Pat.span : Pat → Nat
  | .ident _ sp _ _ _ => sp
  | _ => 0

def Block.id : Block → Nat
  | .mk id _ _ _ => id

def Block.span : Block → Nat
  | .mk _ sp _ _ => sp

def Arm.pats : Arm → List Pat
  | .mk pats _ _ => pats

def Arm.guard : Arm → Option Expr
  | .mk _ guard _ => guard

def Arm.body : Arm → Expr
  | .mk _ _ body => body

/-- `with_new_scope`: create a lexical scope under the current top of
stack, push it unnamed, run the inner walk, pop the trailing artificial
(named) entries, check the top is the scope just created (`span_bug!` on
mismatch, modelled as `Except.error scope_span`) and pop it. -/
def with_new_scope (scope_span : Nat)
    (inner_walk : WalkState → Except Nat WalkState)
    (s : WalkState) : Except Nat WalkState :=
  let parent_scope := (stackTop s.scope_stack).scope_metadata
  let r := createLexicalBlock parent_scope scope_span s
  let scope_metadata := r.1
  let s1 := { r.2 with
    scope_stack := ⟨scope_metadata, none⟩ :: r.2.scope_stack }
  match inner_walk s1 with
  | .error sp => .error sp
  | .ok s2 =>
    let s3 := { s2 with scope_stack := popArtificial s2.scope_stack }
    if (stackTop s3.scope_stack).scope_metadata = scope_metadata then
      .ok { s3 with scope_stack := s3.scope_stack.tail }
    else
      .error scope_span

mutual

/-- `walk_block`: record the block id under the current scope, then each
statement's own id followed by its contents, then the trailing expression. -/
def walk_block (b : Block) (s : WalkState) : Except Nat WalkState :=
  match b with
  | .mk id _ stmts expr => do
    let s := mapInsert id (stackTop s.scope_stack).scope_metadata s
    let s ← walk_stmts stmts s
    match expr with
    | some exp => walk_expr exp s
    | none => .ok s
termination_by structural b

/-- The statement loop of `walk_block`, one recursive helper per statement
list: insert `statement.node.id()` then dispatch on the statement kind. -/
def walk_stmts (stmts : List Stmt) (s : WalkState) : Except Nat WalkState :=
  match stmts with
  | [] => .ok s
  | stmt :: rest => do
    let s := mapInsert
      (match stmt with | .decl id _ => id | .exprS id _ => id | .semi id _ => id)
      (stackTop s.scope_stack).scope_metadata s
    let s ← match stmt with
      | .decl _ d => walk_decl d s
      | .exprS _ exp => walk_expr exp s
      | .semi _ exp => walk_expr exp s
    walk_stmts rest s
termination_by structural stmts

/-- `walk_decl`: a `DeclLocal` records its id, walks the pattern and then
the optional initializer; other declarations are ignored. -/
def walk_decl (d : Decl) (s : WalkState) : Except Nat WalkState :=
  match d with
  | .local id pat init => do
    let s := mapInsert id (stackTop s.scope_stack).scope_metadata s
    let s ← walk_pattern pat s
    match init with
    | some exp => walk_expr exp s
    | none => .ok s
  | .item => .ok s
termination_by structural d

/-- `walk_pattern`: visit every pattern node; a binding `ident` first runs
the shadow check over the whole stack and pushes either a freshly created
artificial scope or a named entry reusing the current handle, then records
its id under the (possibly new) top of stack. -/
def walk_pattern (pat : Pat) (s : WalkState) : Except Nat WalkState :=
  match pat with
  | .ident id span name isBinding subPatOpt => do
    let s :=
      if isBinding then
        let need_new_scope := s.scope_stack.any (fun entry => entry.name = some name)
        if need_new_scope then
          let parent_scope := (stackTop s.scope_stack).scope_metadata
          let r := createLexicalBlock parent_scope span s
          { r.2 with scope_stack := ⟨r.1, some name⟩ :: r.2.scope_stack }
        else
          let prev_metadata := (stackTop s.scope_stack).scope_metadata
          { s with scope_stack := ⟨prev_metadata, some name⟩ :: s.scope_stack }
      else s
    let s := mapInsert id (stackTop s.scope_stack).scope_metadata s
    match subPatOpt with
    | some subPat => walk_pattern subPat s
    | none => .ok s
  | .wild id => .ok (mapInsert id (stackTop s.scope_stack).scope_metadata s)
  | .tupleStruct id subPatsOpt => do
    let s := mapInsert id (stackTop s.scope_stack).scope_metadata s
    match subPatsOpt with
    | some subPats => walk_patterns subPats s
    | none => .ok s
  | .pathP id => .ok (mapInsert id (stackTop s.scope_stack).scope_metadata s)
  | .qpath id => .ok (mapInsert id (stackTop s.scope_stack).scope_metadata s)
  | .structP id fieldPats => do
    let s := mapInsert id (stackTop s.scope_stack).scope_metadata s
    walk_patterns fieldPats s
  | .tup id subPats => do
    let s := mapInsert id (stackTop s.scope_stack).scope_metadata s
    walk_patterns subPats s
  | .boxP id subPat => do
    let s := mapInsert id (stackTop s.scope_stack).scope_metadata s
    walk_pattern subPat s
  | .ref id subPat => do
    let s := mapInsert id (stackTop s.scope_stack).scope_metadata s
    walk_pattern subPat s
  | .lit id exp => do
    let s := mapInsert id (stackTop s.scope_stack).scope_metadata s
    walk_expr exp s
  | .range id exp1 exp2 => do
    let s := mapInsert id (stackTop s.scope_stack).scope_metadata s
    let s ← walk_expr exp1 s
    walk_expr exp2 s
  | .vec id front middle back => do
    let s := mapInsert id (stackTop s.scope_stack).scope_metadata s
    let s ← walk_patterns front s
    let s ← match middle with
      | some subPat => walk_pattern subPat s
      | none => .ok s
    walk_patterns back s
termination_by structural pat

/-- Pattern-list loop used by the composite cases of `walk_pattern`. -/
def walk_patterns (pats : List Pat) (s : WalkState) : Except Nat WalkState :=
  match pats with
  | [] => .ok s
  | p :: rest => do
    let s ← walk_pattern p s
    walk_patterns rest s
termination_by structural pats

/-- `walk_expr`: record the expression id under the current scope, then
recurse into the sub-structure; block-introducing forms (`if` branches,
loop bodies, bare blocks, closures, match arms) open a new scope via
`with_new_scope`. -/
def walk_expr (exp : Expr) (s : WalkState) : Except Nat WalkState :=
  match exp with
  | .lit id | .breakE id | .againE id | .pathE id =>
    .ok (mapInsert id (stackTop s.scope_stack).scope_metadata s)
  | .cast id sub | .typeAsc id sub | .addrOf id sub
  | .field id sub | .tupField id sub | .boxE id sub | .unary id sub => do
    let s := mapInsert id (stackTop s.scope_stack).scope_metadata s
    walk_expr sub s
  | .ret id subOpt => do
    let s := mapInsert id (stackTop s.scope_stack).scope_metadata s
    match subOpt with
    | some sub => walk_expr sub s
    | none => .ok s
  | .assignOp id lhs rhs | .index id lhs rhs | .binary id lhs rhs
  | .assign id lhs rhs | .repeatE id lhs rhs => do
    let s := mapInsert id (stackTop s.scope_stack).scope_metadata s
    let s ← walk_expr lhs s
    walk_expr rhs s
  | .vecE id inits | .tupE id inits | .methodCall id inits => do
    let s := mapInsert id (stackTop s.scope_stack).scope_metadata s
    walk_exprs inits s
  | .ifE id cond thenBlock elseOpt => do
    let s := mapInsert id (stackTop s.scope_stack).scope_metadata s
    let s ← walk_expr cond s
    let s ← with_new_scope thenBlock.span (fun s => walk_block thenBlock s) s
    match elseOpt with
    | some elseExp => walk_expr elseExp s
    | none => .ok s
  | .whileE id cond loopBody => do
    let s := mapInsert id (stackTop s.scope_stack).scope_metadata s
    let s ← walk_expr cond s
    with_new_scope loopBody.span (fun s => walk_block loopBody s) s
  | .loopE id body | .blockE id body => do
    let s := mapInsert id (stackTop s.scope_stack).scope_metadata s
    with_new_scope body.span (fun s => walk_block body s) s
  | .closure id inputs body => do
    let s := mapInsert id (stackTop s.scope_stack).scope_metadata s
    with_new_scope body.span (fun s => do
      let s ← walk_patterns inputs s
      walk_block body s) s
  | .call id fnExp args => do
    let s := mapInsert id (stackTop s.scope_stack).scope_metadata s
    let s ← walk_expr fnExp s
    walk_exprs args s
  | .matchE id discriminant arms => do
    let s := mapInsert id (stackTop s.scope_stack).scope_metadata s
    let s ← walk_expr discriminant s
    walk_arms arms s
  | .structE id fields base => do
    let s := mapInsert id (stackTop s.scope_stack).scope_metadata s
    let s ← walk_exprs fields s
    match base with
    | some exp => walk_expr exp s
    | none => .ok s
  | .inlineAsm id outputs inputs => do
    let s := mapInsert id (stackTop s.scope_stack).scope_metadata s
    let s ← walk_exprs outputs s
    walk_exprs inputs s
termination_by structural exp

/-- Expression-list loop used by `walk_expr`. -/
def walk_exprs (exps : List Expr) (s : WalkState) : Except Nat WalkState :=
  match exps with
  | [] => .ok s
  | e :: rest => do
    let s ← walk_expr e s
    walk_exprs rest s
termination_by structural exps

/-- The arm loop of the `ExprMatch` case: each arm opens one new scope
(at the first pattern's span) covering its patterns, guard and body. -/
def walk_arms (arms : List Arm) (s : WalkState) : Except Nat WalkState :=
  match arms with
  | [] => .ok s
  | .mk pats guard body :: rest => do
    let arm_span := (pats.headI).span
    let s ← with_new_scope arm_span (fun s => do
      let s ← walk_patterns pats s
      let s ← match guard with
        | some guardExp => walk_expr guardExp s
        | none => .ok s
      walk_expr body s) s
    walk_arms rest s
termination_by structural arms

end

mutual

/-- `pat_util::pat_bindings`: enumerate `(node_id, name)` for every binding
`ident` in the pattern, in left-to-right order, descending into
sub-patterns (literal and range patterns hold expressions, which bind
nothing). -/
def pat_bindings (pat : Pat) : List (Nat × String) :=
  match pat with
  | .ident id _ name isBinding subPatOpt =>
    (if isBinding then [(id, name)] else []) ++
      (match subPatOpt with
       | some subPat => pat_bindings subPat
       | none => [])
  | .wild _ => []
  | .tupleStruct _ subPatsOpt =>
    (match subPatsOpt with
     | some subPats => pats_bindings subPats
     | none => [])
  | .pathP _ => []
  | .qpath _ => []
  | .structP _ fieldPats => pats_bindings fieldPats
  | .tup _ subPats => pats_bindings subPats
  | .boxP _ subPat => pat_bindings subPat
  | .ref _ subPat => pat_bindings subPat
  | .lit _ _ => []
  | .range _ _ _ => []
  | .vec _ front middle back =>
    pats_bindings front ++
      (match middle with
       | some subPat => pat_bindings subPat
       | none => []) ++
      pats_bindings back
termination_by structural pat

/-- Binding enumeration over a pattern list. -/
def pats_bindings (pats : List Pat) : List (Nat × String) :=
  match pats with
  | [] => []
  | p :: rest => pat_bindings p ++ pats_bindings rest
termination_by structural pats

end

/-- The argument loop of `create_scope_map`
(`pat_util::pat_bindings(def_map, &arg.pat, ...)` over `args`): push one
named stack entry per binding, keyed to the function handle, and record
the binding's node id under the function handle — no shadow check and no
scope creation. -/
def arg_entries (fn_metadata : Nat) (args : List Pat) (s : WalkState) : WalkState :=
  args.foldl (fun s arg =>
    (pat_bindings arg).foldl (fun s b =>
      { s with
        scope_stack := ⟨fn_metadata, some b.2⟩ :: s.scope_stack,
        scope_map := (b.1, fn_metadata) :: s.scope_map }) s) s

/-- `create_scope_map`: seed the stack with the function scope, record the
function node, register each argument binding against the function handle
(named stack entry, no shadow check, no scope creation), then open the
body scope with `with_new_scope` and walk the entry block inside it.  The
fresh-handle counter starts above `fn_metadata`, reflecting that the
backend never returns the function scope from a lexical-block creation. -/
def create_scope_map (args : List Pat) (fn_entry_block : Block)
    (fn_metadata : Nat) (fn_ast_id : Nat) : Except Nat WalkState :=
  let s : WalkState :=
    { counter := fn_metadata + 1, created := [],
      scope_stack := [⟨fn_metadata, none⟩],
      scope_map := [(fn_ast_id, fn_metadata)] }
  let s := arg_entries fn_metadata args s
  with_new_scope fn_entry_block.span (fun s => walk_block fn_entry_block s) s

/-- `mir::repr::ScopeData` as read by `make_mir_scope`: the optional parent
scope index and the scope's span. -/
structure ScopeData where
  parent_scope : Option Nat
  span : Nat
deriving DecidableEq, Repr

instance : Inhabited ScopeData := ⟨⟨none, 0⟩⟩

/-- The MIR fields the resolver reads: the scope array (indexed by
`ScopeId`) and the owning scope index of each variable declaration. -/
structure Mir where
  scopes : List ScopeData
  var_decls : List Nat
deriving DecidableEq, Repr

/-- `FunctionDebugContext` of the enclosing debuginfo module. -/
inductive FunctionDebugContext where
  | regularContext (fn_metadata : Nat)
  | debugInfoDisabled
  | functionWithoutDebugInfo
deriving DecidableEq, Repr

/-- State of the MIR resolver: the fresh-handle counter, the creation-call
log `(handle, parent, span)` and the output table
(`none` models `ptr::null_mut()`). -/
structure MirState where
  counter : Nat
  created : List (Nat × Nat × Nat)
  scopes : List (Option Nat)
deriving DecidableEq, Repr

/-- The backend creation primitive as invoked by `make_mir_scope`. -/
def createLexicalBlockM (parent_scope span : Nat) (s : MirState) : Nat × MirState :=
  (s.counter,
   { s with counter := s.counter + 1,
            created := (s.counter, parent_scope, span) :: s.created })

/-- The `BitVector` of scopes that directly own at least one variable:
`has_variables.insert(var.scope.index())` over `mir.var_decls`. -/
def has_variables (mir : Mir) (idx : Nat) : Bool :=
  mir.var_decls.contains idx

/-- `make_mir_scope`: memoized resolution of one MIR scope.  Return if the
slot is already filled; a parentless scope is the function root and gets
`fn_metadata`; otherwise resolve the parent first, alias a variable-free
scope to the parent handle unless that handle is the function scope, and
create a fresh lexical block in the remaining cases.  The Rust recursion
terminates because MIR parents precede their children; the `fuel`
parameter bounds the parent-chain length, and every driver call passes
`mir.scopes.length`, which suffices whenever parent indices are smaller
than their children's. -/
def make_mir_scope (mir : Mir) (hasVars : Nat → Bool) (fn_metadata : Nat) :
    Nat → Nat → MirState → MirState
  | 0, _, s => s
  | fuel + 1, idx, s =>
    if (s.scopes.getD idx none).isSome then s
    else
      let scope_data := mir.scopes.getD idx default
      match scope_data.parent_scope with
      | none =>
        { s with scopes := s.scopes.set idx (some fn_metadata) }
      | some parent =>
        let s1 := make_mir_scope mir hasVars fn_metadata fuel parent s
        let parent_scope := (s1.scopes.getD parent none).getD 0
        if hasVars idx = false ∧ parent_scope ≠ fn_metadata then
          { s1 with scopes := s1.scopes.set idx (some parent_scope) }
        else
          let r := createLexicalBlockM parent_scope scope_data.span s1
          { r.2 with scopes := r.2.scopes.set idx (some r.1) }

/-- `create_mir_scopes`: an all-null table of length `mir.scopes.len()` is
returned directly when debug info is disabled or absent; otherwise every
index is instantiated through `make_mir_scope`.  As in `create_scope_map`,
the counter starts above `fn_metadata` so fresh handles are distinct from
the function scope. -/
def create_mir_scopes (mir : Mir) (debug_context : FunctionDebugContext) : MirState :=
  let scopes : List (Option Nat) := List.replicate mir.scopes.length none
  match debug_context with
  | .debugInfoDisabled | .functionWithoutDebugInfo =>
    { counter := 0, created := [], scopes := scopes }
  | .regularContext fn_metadata =>
    (List.range mir.scopes.length).foldl
      (fun s idx =>
        make_mir_scope mir (has_variables mir) fn_metadata mir.scopes.length idx s)
      { counter := fn_metadata + 1, created := [], scopes := scopes }

mutual

/-- All node ids the walker records for a block, in insertion order:
an independently computed reachable-node-id list used to audit the
scope map. -/
def block_ids (b : Block) : List Nat :=
  match b with
  | .mk id _ stmts expr =>
    id :: (stmts_ids stmts ++ (match expr with
      | some e => expr_ids e
      | none => []))
termination_by structural b

/-- Reachable node ids of a statement list, in visit order. -/
def stmts_ids (stmts : List Stmt) : List Nat :=
  match stmts with
  | [] => []
  | stmt :: rest =>
    (match stmt with
     | .decl id d => id :: decl_ids d
     | .exprS id e => id :: expr_ids e
     | .semi id e => id :: expr_ids e) ++ stmts_ids rest
termination_by structural stmts

/-- Reachable node ids of a declaration, in visit order. -/
def decl_ids (d : Decl) : List Nat :=
  match d with
  | .local id pat init =>
    id :: (pat_ids pat ++ (match init with
      | some e => expr_ids e
      | none => []))
  | .item => []
termination_by structural d

/-- Reachable node ids of a pattern, in visit order. -/
def pat_ids (pat : Pat) : List Nat :=
  match pat with
  | .ident id _ _ _ subPatOpt =>
    id :: (match subPatOpt with
      | some subPat => pat_ids subPat
      | none => [])
  | .wild id => [id]
  | .tupleStruct id subPatsOpt =>
    id :: (match subPatsOpt with
      | some subPats => pats_ids subPats
      | none => [])
  | .pathP id => [id]
  | .qpath id => [id]
  | .structP id fieldPats => id :: pats_ids fieldPats
  | .tup id subPats => id :: pats_ids subPats
  | .boxP id subPat => id :: pat_ids subPat
  | .ref id subPat => id :: pat_ids subPat
  | .lit id e => id :: expr_ids e
  | .range id e1 e2 => id :: (expr_ids e1 ++ expr_ids e2)
  | .vec id front middle back =>
    id :: (pats_ids front ++
      (match middle with
       | some subPat => pat_ids subPat
       | none => []) ++
      pats_ids back)
termination_by structural pat

/-- Reachable node ids of a pattern list, in visit order. -/
def pats_ids (pats : List Pat) : List Nat :=
  match pats with
  | [] => []
  | p :: rest => pat_ids p ++ pats_ids rest
termination_by structural pats

/-- Reachable node ids of an expression, in visit order. -/
def expr_ids (exp : Expr) : List Nat :=
  match exp with
  | .lit id | .breakE id | .againE id | .pathE id => [id]
  | .cast id sub | .typeAsc id sub | .addrOf id sub
  | .field id sub | .tupField id sub | .boxE id sub | .unary id sub =>
    id :: expr_ids sub
  | .ret id subOpt =>
    id :: (match subOpt with
      | some sub => expr_ids sub
      | none => [])
  | .assignOp id lhs rhs | .index id lhs rhs | .binary id lhs rhs
  | .assign id lhs rhs | .repeatE id lhs rhs =>
    id :: (expr_ids lhs ++ expr_ids rhs)
  | .vecE id inits | .tupE id inits | .methodCall id inits =>
    id :: exprs_ids inits
  | .ifE id cond thenBlock elseOpt =>
    id :: (expr_ids cond ++ block_ids thenBlock ++ (match elseOpt with
      | some elseExp => expr_ids elseExp
      | none => []))
  | .whileE id cond loopBody =>
    id :: (expr_ids cond ++ block_ids loopBody)
  | .loopE id body | .blockE id body => id :: block_ids body
  | .closure id inputs body => id :: (pats_ids inputs ++ block_ids body)
  | .call id fnExp args => id :: (expr_ids fnExp ++ exprs_ids args)
  | .matchE id discriminant arms =>
    id :: (expr_ids discriminant ++ arms_ids arms)
  | .structE id fields base =>
    id :: (exprs_ids fields ++ (match base with
      | some e => expr_ids e
      | none => []))
  | .inlineAsm id outputs inputs =>
    id :: (exprs_ids outputs ++ exprs_ids inputs)
termination_by structural exp

/-- Reachable node ids of an expression list, in visit order. -/
def exprs_ids (exps : List Expr) : List Nat :=
  match exps with
  | [] => []
  | e :: rest => expr_ids e ++ exprs_ids rest
termination_by structural exps

/-- Reachable node ids of the arms of a match, in visit order. -/
def arms_ids (arms : List Arm) : List Nat :=
  match arms with
  | [] => []
  | .mk pats guard body :: rest =>
    (pats_ids pats ++ (match guard with
      | some guardExp => expr_ids guardExp
      | none => []) ++ expr_ids body) ++ arms_ids rest
termination_by structural arms

end

/-- Every node id `create_scope_map` touches, in insertion order: the
function node, then each argument binding, then the body block. -/
def fn_ids (args : List Pat) (fn_entry_block : Block) (fn_ast_id : Nat) : List Nat :=
  fn_ast_id :: ((pats_bindings args).map Prod.fst ++ block_ids fn_entry_block)

/-- A successful walk step may push only named (synthetic shadow) entries
onto the scope stack, and prepends exactly the given node ids (in reverse,
since the log grows at the head) to the scope-map insertion log. -/
def WalkStep (ids : List Nat) (s s' : WalkState) : Prop :=
  (∃ pushed, s'.scope_stack = pushed ++ s.scope_stack ∧
      ∀ e ∈ pushed, e.name.isSome = true) ∧
  mapKeys s' = ids.reverse ++ mapKeys s

/-- A walk function that succeeds from every state, performing the step
discipline for its list of node ids. -/
def WalkTotal (ids : List Nat) (f : WalkState → Except Nat WalkState) : Prop :=
  ∀ s, ∃ s', f s = .ok s' ∧ WalkStep ids s s'

theorem WalkStep.refl (s : WalkState) : WalkStep [] s s :=
  ⟨⟨[], rfl, by simp⟩, by simp⟩

theorem WalkStep.trans {ids1 ids2 : List Nat} {s s1 s2 : WalkState}
    (h1 : WalkStep ids1 s s1) (h2 : WalkStep ids2 s1 s2) :
    WalkStep (ids1 ++ ids2) s s2 := by
  obtain ⟨⟨p1, hp1, hn1⟩, hm1⟩ := h1
  obtain ⟨⟨p2, hp2, hn2⟩, hm2⟩ := h2
  refine ⟨⟨p2 ++ p1, by simp [hp2, hp1], ?_⟩, by simp [hm2, hm1]⟩
  intro e he
  rcases List.mem_append.mp he with h | h
  exacts [hn2 e h, hn1 e h]

theorem WalkStep.insert (id h : Nat) (s : WalkState) :
    WalkStep [id] s (mapInsert id h s) :=
  ⟨⟨[], rfl, by simp⟩, by simp [mapInsert, mapKeys]⟩

/-- Pushing one named entry (while leaving the map untouched) is a walk
step recording nothing. -/
theorem WalkStep.push {s s' : WalkState} (e : ScopeStackEntry)
    (he : e.name.isSome = true)
    (hstack : s'.scope_stack = e :: s.scope_stack)
    (hmap : s'.scope_map = s.scope_map) :
    WalkStep [] s s' :=
  ⟨⟨[e], by simp [hstack], by simp [he]⟩, by simp [mapKeys, hmap]⟩

theorem WalkTotal.bind {ids1 ids2 : List Nat}
    {f g : WalkState → Except Nat WalkState}
    (hf : WalkTotal ids1 f) (hg : WalkTotal ids2 g) :
    WalkTotal (ids1 ++ ids2) (fun s => f s >>= g) := by
  intro s
  obtain ⟨s1, h1, st1⟩ := hf s
  obtain ⟨s2, h2, st2⟩ := hg s1
  refine ⟨s2, ?_, st1.trans st2⟩
  simp only [h1]
  exact h2

/-- `popArtificial` removes exactly the trailing synthetic entries: all the
named entries pushed since the last unnamed one, stopping at that unnamed
entry. -/
theorem popArtificial_append (pushed : List ScopeStackEntry)
    (e : ScopeStackEntry) (rest : List ScopeStackEntry)
    (h : ∀ x ∈ pushed, x.name.isSome = true) (he : e.name = none) :
    popArtificial (pushed ++ e :: rest) = e :: rest := by
  induction pushed with
  | nil => simp [popArtificial, he]
  | cons x xs ih =>
    have hx : x.name.isSome = true := h x (by simp)
    simp only [List.cons_append, popArtificial, hx, if_pos]
    exact ih (fun y hy => h y (by simp [hy]))

/-- `with_new_scope` around a total inner walk: the call succeeds, the
consistency check passes, and the scope stack is restored exactly to its
state before the call, while the map gains exactly the inner walk's ids. -/
theorem with_new_scope_total (sp : Nat) (ids : List Nat)
    (f : WalkState → Except Nat WalkState) (hf : WalkTotal ids f)
    (s : WalkState) :
    ∃ s', with_new_scope sp f s = .ok s' ∧ WalkStep ids s s' ∧
      s'.scope_stack = s.scope_stack := by
  obtain ⟨s2, hrun, ⟨pushed, hstack, hname⟩, hmap⟩ :=
    hf { s with
          counter := s.counter + 1,
          created := (s.counter, (stackTop s.scope_stack).scope_metadata, sp)
            :: s.created,
          scope_stack := ⟨s.counter, none⟩ :: s.scope_stack }
  have hpop : popArtificial s2.scope_stack = ⟨s.counter, none⟩ :: s.scope_stack := by
    rw [hstack]
    exact popArtificial_append pushed _ _ hname rfl
  refine ⟨{ s2 with scope_stack := s.scope_stack }, ?_, ⟨⟨[], rfl, by simp⟩, ?_⟩, rfl⟩
  · simp only [with_new_scope, createLexicalBlock]
    rw [hrun]
    simp [hpop, stackTop]
  · simpa [mapKeys] using hmap

theorem WalkTotal.pure : WalkTotal [] (fun s => .ok s) :=
  fun s => ⟨s, rfl, WalkStep.refl s⟩

theorem ok_bind (a : WalkState) (f : WalkState → Except Nat WalkState) :
    (Except.ok a : Except Nat WalkState) >>= f = f a := rfl

/-- The conditional push `walk_pattern` performs at a binding `ident`
before recording the node id: an artificial scope on shadow collision, a
plain named entry reusing the current handle otherwise, nothing for
non-binding idents. -/
def identPush (sp : Nat) (name : String) (isBinding : Bool) (s : WalkState) : WalkState :=
  if isBinding then
    if s.scope_stack.any (fun entry => entry.name = some name) then
      { s with counter := s.counter + 1,
               created := (s.counter, (stackTop s.scope_stack).scope_metadata, sp)
                 :: s.created,
               scope_stack := ⟨s.counter, some name⟩ :: s.scope_stack }
    else
      { s with scope_stack :=
          ⟨(stackTop s.scope_stack).scope_metadata, some name⟩ :: s.scope_stack }
  else s

theorem identPush_false (sp : Nat) (name : String) (s : WalkState) :
    identPush sp name false s = s := rfl

theorem identPush_pos (sp : Nat) (name : String) (s : WalkState)
    (hany : (s.scope_stack.any fun entry => entry.name = some name) = true) :
    identPush sp name true s =
      { s with counter := s.counter + 1,
               created := (s.counter, (stackTop s.scope_stack).scope_metadata, sp)
                 :: s.created,
               scope_stack := ⟨s.counter, some name⟩ :: s.scope_stack } := by
  simp [identPush, hany]

theorem identPush_neg (sp : Nat) (name : String) (s : WalkState)
    (hany : (s.scope_stack.any fun entry => entry.name = some name) = false) :
    identPush sp name true s =
      { s with scope_stack :=
          ⟨(stackTop s.scope_stack).scope_metadata, some name⟩ :: s.scope_stack } := by
  simp [identPush, hany]

/-! Definitional step equations for the walk functions, used in place of
the automatically generated equations. -/

theorem walk_block_eq_some (id sp : Nat) (stmts : List Stmt) (exp : Expr) (s : WalkState) :
    walk_block (.mk id sp stmts (some exp)) s =
      (walk_stmts stmts (mapInsert id (stackTop s.scope_stack).scope_metadata s) >>=
        fun t => walk_expr exp t) := rfl

theorem walk_block_eq_none (id sp : Nat) (stmts : List Stmt) (s : WalkState) :
    walk_block (.mk id sp stmts none) s =
      (walk_stmts stmts (mapInsert id (stackTop s.scope_stack).scope_metadata s) >>=
        fun t => Except.ok t) := rfl

theorem walk_stmts_eq_nil (s : WalkState) : walk_stmts [] s = .ok s := rfl

theorem walk_stmts_eq_decl (id : Nat) (d : Decl) (rest : List Stmt) (s : WalkState) :
    walk_stmts (.decl id d :: rest) s =
      (walk_decl d (mapInsert id (stackTop s.scope_stack).scope_metadata s) >>=
        fun t => walk_stmts rest t) := rfl

theorem walk_stmts_eq_exprS (id : Nat) (e : Expr) (rest : List Stmt) (s : WalkState) :
    walk_stmts (.exprS id e :: rest) s =
      (walk_expr e (mapInsert id (stackTop s.scope_stack).scope_metadata s) >>=
        fun t => walk_stmts rest t) := rfl

theorem walk_stmts_eq_semi (id : Nat) (e : Expr) (rest : List Stmt) (s : WalkState) :
    walk_stmts (.semi id e :: rest) s =
      (walk_expr e (mapInsert id (stackTop s.scope_stack).scope_metadata s) >>=
        fun t => walk_stmts rest t) := rfl

theorem walk_decl_eq_local_some (id : Nat) (pat : Pat) (exp : Expr) (s : WalkState) :
    walk_decl (.local id pat (some exp)) s =
      (walk_pattern pat (mapInsert id (stackTop s.scope_stack).scope_metadata s) >>=
        fun t => walk_expr exp t) := rfl

theorem walk_decl_eq_local_none (id : Nat) (pat : Pat) (s : WalkState) :
    walk_decl (.local id pat none) s =
      (walk_pattern pat (mapInsert id (stackTop s.scope_stack).scope_metadata s) >>=
        fun t => Except.ok t) := rfl

theorem walk_decl_eq_item (s : WalkState) : walk_decl .item s = .ok s := rfl

theorem walk_pattern_eq_ident_some (id sp : Nat) (name : String) (isBinding : Bool)
    (subPat : Pat) (s : WalkState) :
    walk_pattern (.ident id sp name isBinding (some subPat)) s =
      walk_pattern subPat
        (mapInsert id (stackTop (identPush sp name isBinding s).scope_stack).scope_metadata
          (identPush sp name isBinding s)) := rfl

theorem walk_pattern_eq_ident_none (id sp : Nat) (name : String) (isBinding : Bool)
    (s : WalkState) :
    walk_pattern (.ident id sp name isBinding none) s =
      .ok (mapInsert id (stackTop (identPush sp name isBinding s).scope_stack).scope_metadata
          (identPush sp name isBinding s)) := rfl

theorem walk_pattern_eq_wild (id : Nat) (s : WalkState) :
    walk_pattern (.wild id) s =
      .ok (mapInsert id (stackTop s.scope_stack).scope_metadata s) := rfl

theorem walk_pattern_eq_tupleStruct_some (id : Nat) (subPats : List Pat) (s : WalkState) :
    walk_pattern (.tupleStruct id (some subPats)) s =
      walk_patterns subPats (mapInsert id (stackTop s.scope_stack).scope_metadata s) := rfl

theorem walk_pattern_eq_tupleStruct_none (id : Nat) (s : WalkState) :
    walk_pattern (.tupleStruct id none) s =
      .ok (mapInsert id (stackTop s.scope_stack).scope_metadata s) := rfl

theorem walk_pattern_eq_pathP (id : Nat) (s : WalkState) :
    walk_pattern (.pathP id) s =
      .ok (mapInsert id (stackTop s.scope_stack).scope_metadata s) := rfl

theorem walk_pattern_eq_qpath (id : Nat) (s : WalkState) :
    walk_pattern (.qpath id) s =
      .ok (mapInsert id (stackTop s.scope_stack).scope_metadata s) := rfl

theorem walk_pattern_eq_structP (id : Nat) (fieldPats : List Pat) (s : WalkState) :
    walk_pattern (.structP id fieldPats) s =
      walk_patterns fieldPats (mapInsert id (stackTop s.scope_stack).scope_metadata s) := rfl

theorem walk_pattern_eq_tup (id : Nat) (subPats : List Pat) (s : WalkState) :
    walk_pattern (.tup id subPats) s =
      walk_patterns subPats (mapInsert id (stackTop s.scope_stack).scope_metadata s) := rfl

theorem walk_pattern_eq_boxP (id : Nat) (subPat : Pat) (s : WalkState) :
    walk_pattern (.boxP id subPat) s =
      walk_pattern subPat (mapInsert id (stackTop s.scope_stack).scope_metadata s) := rfl

theorem walk_pattern_eq_ref (id : Nat) (subPat : Pat) (s : WalkState) :
    walk_pattern (.ref id subPat) s =
      walk_pattern subPat (mapInsert id (stackTop s.scope_stack).scope_metadata s) := rfl

theorem walk_pattern_eq_lit (id : Nat) (e : Expr) (s : WalkState) :
    walk_pattern (.lit id e) s =
      walk_expr e (mapInsert id (stackTop s.scope_stack).scope_metadata s) := rfl

theorem walk_pattern_eq_range (id : Nat) (e1 e2 : Expr) (s : WalkState) :
    walk_pattern (.range id e1 e2) s =
      (walk_expr e1 (mapInsert id (stackTop s.scope_stack).scope_metadata s) >>=
        fun t => walk_expr e2 t) := rfl

theorem walk_pattern_eq_vec_some (id : Nat) (front : List Pat) (subPat : Pat)
    (back : List Pat) (s : WalkState) :
    walk_pattern (.vec id front (some subPat) back) s =
      (walk_patterns front (mapInsert id (stackTop s.scope_stack).scope_metadata s) >>=
        fun t => walk_pattern subPat t >>= fun t => walk_patterns back t) := rfl

theorem walk_pattern_eq_vec_none (id : Nat) (front back : List Pat) (s : WalkState) :
    walk_pattern (.vec id front none back) s =
      (walk_patterns front (mapInsert id (stackTop s.scope_stack).scope_metadata s) >>=
        fun t => walk_patterns back t) := rfl

theorem walk_patterns_eq_nil (s : WalkState) : walk_patterns [] s = .ok s := rfl

theorem walk_patterns_eq_cons (p : Pat) (rest : List Pat) (s : WalkState) :
    walk_patterns (p :: rest) s =
      (walk_pattern p s >>= fun t => walk_patterns rest t) := rfl

theorem walk_expr_eq_lit (id : Nat) (s : WalkState) :
    walk_expr (.lit id) s =
      .ok (mapInsert id (stackTop s.scope_stack).scope_metadata s) := rfl

theorem walk_expr_eq_breakE (id : Nat) (s : WalkState) :
    walk_expr (.breakE id) s =
      .ok (mapInsert id (stackTop s.scope_stack).scope_metadata s) := rfl

theorem walk_expr_eq_againE (id : Nat) (s : WalkState) :
    walk_expr (.againE id) s =
      .ok (mapInsert id (stackTop s.scope_stack).scope_metadata s) := rfl

theorem walk_expr_eq_pathE (id : Nat) (s : WalkState) :
    walk_expr (.pathE id) s =
      .ok (mapInsert id (stackTop s.scope_stack).scope_metadata s) := rfl

theorem walk_expr_eq_cast (id : Nat) (sub : Expr) (s : WalkState) :
    walk_expr (.cast id sub) s =
      walk_expr sub (mapInsert id (stackTop s.scope_stack).scope_metadata s) := rfl

theorem walk_expr_eq_typeAsc (id : Nat) (sub : Expr) (s : WalkState) :
    walk_expr (.typeAsc id sub) s =
      walk_expr sub (mapInsert id (stackTop s.scope_stack).scope_metadata s) := rfl

theorem walk_expr_eq_addrOf (id : Nat) (sub : Expr) (s : WalkState) :
    walk_expr (.addrOf id sub) s =
      walk_expr sub (mapInsert id (stackTop s.scope_stack).scope_metadata s) := rfl

theorem walk_expr_eq_field (id : Nat) (sub : Expr) (s : WalkState) :
    walk_expr (.field id sub) s =
      walk_expr sub (mapInsert id (stackTop s.scope_stack).scope_metadata s) := rfl

theorem walk_expr_eq_tupField (id : Nat) (sub : Expr) (s : WalkState) :
    walk_expr (.tupField id sub) s =
      walk_expr sub (mapInsert id (stackTop s.scope_stack).scope_metadata s) := rfl

theorem walk_expr_eq_boxE (id : Nat) (sub : Expr) (s : WalkState) :
    walk_expr (.boxE id sub) s =
      walk_expr sub (mapInsert id (stackTop s.scope_stack).scope_metadata s) := rfl

theorem walk_expr_eq_unary (id : Nat) (sub : Expr) (s : WalkState) :
    walk_expr (.unary id sub) s =
      walk_expr sub (mapInsert id (stackTop s.scope_stack).scope_metadata s) := rfl

theorem walk_expr_eq_ret_some (id : Nat) (sub : Expr) (s : WalkState) :
    walk_expr (.ret id (some sub)) s =
      walk_expr sub (mapInsert id (stackTop s.scope_stack).scope_metadata s) := rfl

theorem walk_expr_eq_ret_none (id : Nat) (s : WalkState) :
    walk_expr (.ret id none) s =
      .ok (mapInsert id (stackTop s.scope_stack).scope_metadata s) := rfl

theorem walk_expr_eq_assignOp (id : Nat) (lhs rhs : Expr) (s : WalkState) :
    walk_expr (.assignOp id lhs rhs) s =
      (walk_expr lhs (mapInsert id (stackTop s.scope_stack).scope_metadata s) >>=
        fun t => walk_expr rhs t) := rfl

theorem walk_expr_eq_index (id : Nat) (lhs rhs : Expr) (s : WalkState) :
    walk_expr (.index id lhs rhs) s =
      (walk_expr lhs (mapInsert id (stackTop s.scope_stack).scope_metadata s) >>=
        fun t => walk_expr rhs t) := rfl

theorem walk_expr_eq_binary (id : Nat) (lhs rhs : Expr) (s : WalkState) :
    walk_expr (.binary id lhs rhs) s =
      (walk_expr lhs (mapInsert id (stackTop s.scope_stack).scope_metadata s) >>=
        fun t => walk_expr rhs t) := rfl

theorem walk_expr_eq_assign (id : Nat) (lhs rhs : Expr) (s : WalkState) :
    walk_expr (.assign id lhs rhs) s =
      (walk_expr lhs (mapInsert id (stackTop s.scope_stack).scope_metadata s) >>=
        fun t => walk_expr rhs t) := rfl

theorem walk_expr_eq_repeatE (id : Nat) (lhs rhs : Expr) (s : WalkState) :
    walk_expr (.repeatE id lhs rhs) s =
      (walk_expr lhs (mapInsert id (stackTop s.scope_stack).scope_metadata s) >>=
        fun t => walk_expr rhs t) := rfl

theorem walk_expr_eq_vecE (id : Nat) (inits : List Expr) (s : WalkState) :
    walk_expr (.vecE id inits) s =
      walk_exprs inits (mapInsert id (stackTop s.scope_stack).scope_metadata s) := rfl

theorem walk_expr_eq_tupE (id : Nat) (inits : List Expr) (s : WalkState) :
    walk_expr (.tupE id inits) s =
      walk_exprs inits (mapInsert id (stackTop s.scope_stack).scope_metadata s) := rfl

theorem walk_expr_eq_methodCall (id : Nat) (inits : List Expr) (s : WalkState) :
    walk_expr (.methodCall id inits) s =
      walk_exprs inits (mapInsert id (stackTop s.scope_stack).scope_metadata s) := rfl

theorem walk_expr_eq_ifE_some (id : Nat) (cond : Expr) (thenBlock : Block)
    (elseExp : Expr) (s : WalkState) :
    walk_expr (.ifE id cond thenBlock (some elseExp)) s =
      (walk_expr cond (mapInsert id (stackTop s.scope_stack).scope_metadata s) >>=
        fun t => with_new_scope thenBlock.span (fun u => walk_block thenBlock u) t >>=
        fun t => walk_expr elseExp t) := rfl

theorem walk_expr_eq_ifE_none (id : Nat) (cond : Expr) (thenBlock : Block) (s : WalkState) :
    walk_expr (.ifE id cond thenBlock none) s =
      (walk_expr cond (mapInsert id (stackTop s.scope_stack).scope_metadata s) >>=
        fun t => with_new_scope thenBlock.span (fun u => walk_block thenBlock u) t >>=
        fun t => Except.ok t) := rfl

theorem walk_expr_eq_whileE (id : Nat) (cond : Expr) (loopBody : Block) (s : WalkState) :
    walk_expr (.whileE id cond loopBody) s =
      (walk_expr cond (mapInsert id (stackTop s.scope_stack).scope_metadata s) >>=
        fun t => with_new_scope loopBody.span (fun u => walk_block loopBody u) t) := rfl

theorem walk_expr_eq_loopE (id : Nat) (body : Block) (s : WalkState) :
    walk_expr (.loopE id body) s =
      with_new_scope body.span (fun u => walk_block body u)
        (mapInsert id (stackTop s.scope_stack).scope_metadata s) := rfl

theorem walk_expr_eq_blockE (id : Nat) (body : Block) (s : WalkState) :
    walk_expr (.blockE id body) s =
      with_new_scope body.span (fun u => walk_block body u)
        (mapInsert id (stackTop s.scope_stack).scope_metadata s) := rfl

theorem walk_expr_eq_closure (id : Nat) (inputs : List Pat) (body : Block) (s : WalkState) :
    walk_expr (.closure id inputs body) s =
      with_new_scope body.span
        (fun u => walk_patterns inputs u >>= fun u => walk_block body u)
        (mapInsert id (stackTop s.scope_stack).scope_metadata s) := rfl

theorem walk_expr_eq_call (id : Nat) (fnExp : Expr) (args : List Expr) (s : WalkState) :
    walk_expr (.call id fnExp args) s =
      (walk_expr fnExp (mapInsert id (stackTop s.scope_stack).scope_metadata s) >>=
        fun t => walk_exprs args t) := rfl

theorem walk_expr_eq_matchE (id : Nat) (discriminant : Expr) (arms : List Arm)
    (s : WalkState) :
    walk_expr (.matchE id discriminant arms) s =
      (walk_expr discriminant (mapInsert id (stackTop s.scope_stack).scope_metadata s) >>=
        fun t => walk_arms arms t) := rfl

theorem walk_expr_eq_structE_some (id : Nat) (fields : List Expr) (exp : Expr)
    (s : WalkState) :
    walk_expr (.structE id fields (some exp)) s =
      (walk_exprs fields (mapInsert id (stackTop s.scope_stack).scope_metadata s) >>=
        fun t => walk_expr exp t) := rfl

theorem walk_expr_eq_structE_none (id : Nat) (fields : List Expr) (s : WalkState) :
    walk_expr (.structE id fields none) s =
      (walk_exprs fields (mapInsert id (stackTop s.scope_stack).scope_metadata s) >>=
        fun t => Except.ok t) := rfl

theorem walk_expr_eq_inlineAsm (id : Nat) (outputs inputs : List Expr) (s : WalkState) :
    walk_expr (.inlineAsm id outputs inputs) s =
      (walk_exprs outputs (mapInsert id (stackTop s.scope_stack).scope_metadata s) >>=
        fun t => walk_exprs inputs t) := rfl

theorem walk_exprs_eq_nil (s : WalkState) : walk_exprs [] s = .ok s := rfl

theorem walk_exprs_eq_cons (e : Expr) (rest : List Expr) (s : WalkState) :
    walk_exprs (e :: rest) s =
      (walk_expr e s >>= fun t => walk_exprs rest t) := rfl

theorem walk_arms_eq_nil (s : WalkState) : walk_arms [] s = .ok s := rfl

theorem walk_arms_eq_cons_some (pats : List Pat) (guardExp body : Expr)
    (rest : List Arm) (s : WalkState) :
    walk_arms (.mk pats (some guardExp) body :: rest) s =
      (with_new_scope (pats.headI).span
        (fun u => walk_patterns pats u >>= fun u =>
          walk_expr guardExp u >>= fun u => walk_expr body u) s >>=
        fun t => walk_arms rest t) := rfl

theorem walk_arms_eq_cons_none (pats : List Pat) (body : Expr)
    (rest : List Arm) (s : WalkState) :
    walk_arms (.mk pats none body :: rest) s =
      (with_new_scope (pats.headI).span
        (fun u => walk_patterns pats u >>= fun u => walk_expr body u) s >>=
        fun t => walk_arms rest t) := rfl

mutual

/-- Walking a block succeeds, pushes only named entries, and records
exactly the block's reachable node ids. -/
theorem walk_block_spec (b : Block) : WalkTotal (block_ids b) (walk_block b) := by
  match b with
  | .mk id sp stmts expr =>
    intro s
    obtain ⟨s1, h1, st1⟩ :=
      walk_stmts_spec stmts (mapInsert id (stackTop s.scope_stack).scope_metadata s)
    match expr with
    | some exp =>
      obtain ⟨s2, h2, st2⟩ := walk_expr_spec exp s1
      refine ⟨s2, ?_, ?_⟩
      · simp only [walk_block_eq_some, h1, ok_bind]
        exact h2
      · simpa [block_ids, List.append_assoc] using
          ((WalkStep.insert id _ s).trans (st1.trans st2))
    | none =>
      refine ⟨s1, ?_, ?_⟩
      · simp only [walk_block_eq_none, h1, ok_bind]
      · simpa [block_ids] using ((WalkStep.insert id _ s).trans st1)
termination_by sizeOf b

/-- Walking a statement list succeeds with the statements' node ids. -/
theorem walk_stmts_spec (stmts : List Stmt) :
    WalkTotal (stmts_ids stmts) (walk_stmts stmts) := by
  match stmts with
  | [] => exact fun s => ⟨s, rfl, WalkStep.refl s⟩
  | .decl id d :: rest =>
    intro s
    obtain ⟨s1, h1, st1⟩ :=
      walk_decl_spec d (mapInsert id (stackTop s.scope_stack).scope_metadata s)
    obtain ⟨s2, h2, st2⟩ := walk_stmts_spec rest s1
    refine ⟨s2, ?_, ?_⟩
    · simp only [walk_stmts_eq_decl, h1, ok_bind]
      exact h2
    · simpa [stmts_ids, List.append_assoc] using
        ((WalkStep.insert id _ s).trans (st1.trans st2))
  | .exprS id e :: rest =>
    intro s
    obtain ⟨s1, h1, st1⟩ :=
      walk_expr_spec e (mapInsert id (stackTop s.scope_stack).scope_metadata s)
    obtain ⟨s2, h2, st2⟩ := walk_stmts_spec rest s1
    refine ⟨s2, ?_, ?_⟩
    · simp only [walk_stmts_eq_exprS, h1, ok_bind]
      exact h2
    · simpa [stmts_ids, List.append_assoc] using
        ((WalkStep.insert id _ s).trans (st1.trans st2))
  | .semi id e :: rest =>
    intro s
    obtain ⟨s1, h1, st1⟩ :=
      walk_expr_spec e (mapInsert id (stackTop s.scope_stack).scope_metadata s)
    obtain ⟨s2, h2, st2⟩ := walk_stmts_spec rest s1
    refine ⟨s2, ?_, ?_⟩
    · simp only [walk_stmts_eq_semi, h1, ok_bind]
      exact h2
    · simpa [stmts_ids, List.append_assoc] using
        ((WalkStep.insert id _ s).trans (st1.trans st2))
termination_by sizeOf stmts

/-- Walking a declaration succeeds with the declaration's node ids. -/
theorem walk_decl_spec (d : Decl) : WalkTotal (decl_ids d) (walk_decl d) := by
  match d with
  | .local id pat init =>
    intro s
    obtain ⟨s1, h1, st1⟩ :=
      walk_pattern_spec pat (mapInsert id (stackTop s.scope_stack).scope_metadata s)
    match init with
    | some exp =>
      obtain ⟨s2, h2, st2⟩ := walk_expr_spec exp s1
      refine ⟨s2, ?_, ?_⟩
      · simp only [walk_decl_eq_local_some, h1, ok_bind]
        exact h2
      · simpa [decl_ids, List.append_assoc] using
          ((WalkStep.insert id _ s).trans (st1.trans st2))
    | none =>
      refine ⟨s1, ?_, ?_⟩
      · simp only [walk_decl_eq_local_none, h1, ok_bind]
      · simpa [decl_ids] using ((WalkStep.insert id _ s).trans st1)
  | .item => exact fun s => ⟨s, rfl, WalkStep.refl s⟩
termination_by sizeOf d

/-- Walking a pattern succeeds, pushes only named entries (one per binding
encountered) and records exactly the pattern's node ids. -/
theorem walk_pattern_spec (pat : Pat) : WalkTotal (pat_ids pat) (walk_pattern pat) := by
  match pat with
  | .ident id sp name isBinding (some subPat) =>
    intro s
    have key : ∀ sif : WalkState, WalkStep [] s sif →
        ∀ r, walk_pattern subPat
            (mapInsert id (stackTop sif.scope_stack).scope_metadata sif) = r →
        ∃ s', r = .ok s' ∧
          WalkStep (pat_ids (.ident id sp name isBinding (some subPat))) s s' := by
      intro sif h0 r hr
      obtain ⟨s2, h2, st2⟩ := walk_pattern_spec subPat
        (mapInsert id (stackTop sif.scope_stack).scope_metadata sif)
      refine ⟨s2, by rw [← hr, h2], ?_⟩
      simpa [pat_ids] using (h0.trans ((WalkStep.insert id _ sif).trans st2))
    rw [walk_pattern_eq_ident_some]
    cases isBinding with
    | false =>
      rw [identPush_false]
      exact key s (WalkStep.refl s) _ rfl
    | true =>
      cases hany : (s.scope_stack.any fun entry => entry.name = some name) with
      | true =>
        rw [identPush_pos sp name s hany]
        exact key
          { s with counter := s.counter + 1,
                   created := (s.counter, (stackTop s.scope_stack).scope_metadata, sp)
                     :: s.created,
                   scope_stack := ⟨s.counter, some name⟩ :: s.scope_stack }
          (WalkStep.push ⟨s.counter, some name⟩ rfl rfl rfl) _ rfl
      | false =>
        rw [identPush_neg sp name s hany]
        exact key
          { s with scope_stack :=
              ⟨(stackTop s.scope_stack).scope_metadata, some name⟩ :: s.scope_stack }
          (WalkStep.push ⟨(stackTop s.scope_stack).scope_metadata, some name⟩ rfl rfl rfl)
          _ rfl
  | .ident id sp name isBinding none =>
    intro s
    have key : ∀ sif : WalkState, WalkStep [] s sif →
        ∃ s', (Except.ok (mapInsert id (stackTop sif.scope_stack).scope_metadata sif)
            : Except Nat WalkState) = .ok s' ∧
          WalkStep (pat_ids (.ident id sp name isBinding none)) s s' := by
      intro sif h0
      refine ⟨_, rfl, ?_⟩
      simpa [pat_ids] using (h0.trans (WalkStep.insert id _ sif))
    rw [walk_pattern_eq_ident_none]
    cases isBinding with
    | false =>
      rw [identPush_false]
      exact key s (WalkStep.refl s)
    | true =>
      cases hany : (s.scope_stack.any fun entry => entry.name = some name) with
      | true =>
        rw [identPush_pos sp name s hany]
        exact key
          { s with counter := s.counter + 1,
                   created := (s.counter, (stackTop s.scope_stack).scope_metadata, sp)
                     :: s.created,
                   scope_stack := ⟨s.counter, some name⟩ :: s.scope_stack }
          (WalkStep.push ⟨s.counter, some name⟩ rfl rfl rfl)
      | false =>
        rw [identPush_neg sp name s hany]
        exact key
          { s with scope_stack :=
              ⟨(stackTop s.scope_stack).scope_metadata, some name⟩ :: s.scope_stack }
          (WalkStep.push ⟨(stackTop s.scope_stack).scope_metadata, some name⟩ rfl rfl rfl)
  | .wild id =>
    exact fun s => ⟨_, rfl, by simpa [pat_ids] using (WalkStep.insert id _ s)⟩
  | .tupleStruct id (some subPats) =>
    intro s
    obtain ⟨s1, h1, st1⟩ :=
      walk_patterns_spec subPats (mapInsert id (stackTop s.scope_stack).scope_metadata s)
    refine ⟨s1, ?_, ?_⟩
    · simp only [walk_pattern_eq_tupleStruct_some, h1]
    · simpa [pat_ids] using ((WalkStep.insert id _ s).trans st1)
  | .tupleStruct id none =>
    exact fun s => ⟨_, rfl, by simpa [pat_ids] using (WalkStep.insert id _ s)⟩
  | .pathP id =>
    exact fun s => ⟨_, rfl, by simpa [pat_ids] using (WalkStep.insert id _ s)⟩
  | .qpath id =>
    exact fun s => ⟨_, rfl, by simpa [pat_ids] using (WalkStep.insert id _ s)⟩
  | .structP id fieldPats =>
    intro s
    obtain ⟨s1, h1, st1⟩ :=
      walk_patterns_spec fieldPats (mapInsert id (stackTop s.scope_stack).scope_metadata s)
    refine ⟨s1, ?_, ?_⟩
    · simp only [walk_pattern_eq_structP, h1]
    · simpa [pat_ids] using ((WalkStep.insert id _ s).trans st1)
  | .tup id subPats =>
    intro s
    obtain ⟨s1, h1, st1⟩ :=
      walk_patterns_spec subPats (mapInsert id (stackTop s.scope_stack).scope_metadata s)
    refine ⟨s1, ?_, ?_⟩
    · simp only [walk_pattern_eq_tup, h1]
    · simpa [pat_ids] using ((WalkStep.insert id _ s).trans st1)
  | .boxP id subPat =>
    intro s
    obtain ⟨s1, h1, st1⟩ :=
      walk_pattern_spec subPat (mapInsert id (stackTop s.scope_stack).scope_metadata s)
    refine ⟨s1, ?_, ?_⟩
    · simp only [walk_pattern_eq_boxP, h1]
    · simpa [pat_ids] using ((WalkStep.insert id _ s).trans st1)
  | .ref id subPat =>
    intro s
    obtain ⟨s1, h1, st1⟩ :=
      walk_pattern_spec subPat (mapInsert id (stackTop s.scope_stack).scope_metadata s)
    refine ⟨s1, ?_, ?_⟩
    · simp only [walk_pattern_eq_ref, h1]
    · simpa [pat_ids] using ((WalkStep.insert id _ s).trans st1)
  | .lit id exp =>
    intro s
    obtain ⟨s1, h1, st1⟩ :=
      walk_expr_spec exp (mapInsert id (stackTop s.scope_stack).scope_metadata s)
    refine ⟨s1, ?_, ?_⟩
    · simp only [walk_pattern_eq_lit, h1]
    · simpa [pat_ids] using ((WalkStep.insert id _ s).trans st1)
  | .range id exp1 exp2 =>
    intro s
    obtain ⟨s1, h1, st1⟩ :=
      walk_expr_spec exp1 (mapInsert id (stackTop s.scope_stack).scope_metadata s)
    obtain ⟨s2, h2, st2⟩ := walk_expr_spec exp2 s1
    refine ⟨s2, ?_, ?_⟩
    · simp only [walk_pattern_eq_range, h1, ok_bind]
      exact h2
    · simpa [pat_ids, List.append_assoc] using
        ((WalkStep.insert id _ s).trans (st1.trans st2))
  | .vec id front (some subPat) back =>
    intro s
    obtain ⟨s1, h1, st1⟩ :=
      walk_patterns_spec front (mapInsert id (stackTop s.scope_stack).scope_metadata s)
    obtain ⟨s2, h2, st2⟩ := walk_pattern_spec subPat s1
    obtain ⟨s3, h3, st3⟩ := walk_patterns_spec back s2
    refine ⟨s3, ?_, ?_⟩
    · simp only [walk_pattern_eq_vec_some, h1, h2, ok_bind]
      exact h3
    · simpa [pat_ids, List.append_assoc] using
        ((WalkStep.insert id _ s).trans (st1.trans (st2.trans st3)))
  | .vec id front none back =>
    intro s
    obtain ⟨s1, h1, st1⟩ :=
      walk_patterns_spec front (mapInsert id (stackTop s.scope_stack).scope_metadata s)
    obtain ⟨s3, h3, st3⟩ := walk_patterns_spec back s1
    refine ⟨s3, ?_, ?_⟩
    · simp only [walk_pattern_eq_vec_none, h1, ok_bind]
      exact h3
    · simpa [pat_ids, List.append_assoc] using
        ((WalkStep.insert id _ s).trans (st1.trans st3))
termination_by sizeOf pat

/-- Walking a pattern list succeeds with the patterns' node ids. -/
theorem walk_patterns_spec (pats : List Pat) :
    WalkTotal (pats_ids pats) (walk_patterns pats) := by
  match pats with
  | [] => exact fun s => ⟨s, rfl, WalkStep.refl s⟩
  | p :: rest =>
    intro s
    obtain ⟨s1, h1, st1⟩ := walk_pattern_spec p s
    obtain ⟨s2, h2, st2⟩ := walk_patterns_spec rest s1
    refine ⟨s2, ?_, ?_⟩
    · simp only [walk_patterns_eq_cons, h1, ok_bind]
      exact h2
    · simpa [pats_ids] using (st1.trans st2)
termination_by sizeOf pats

/-- Walking an expression succeeds, restores the stack across every scope
it opens, pushes only named entries and records exactly its node ids. -/
theorem walk_expr_spec (exp : Expr) : WalkTotal (expr_ids exp) (walk_expr exp) := by
  match exp with
  | .lit id =>
    exact fun s => ⟨_, rfl, by simpa [expr_ids] using (WalkStep.insert id _ s)⟩
  | .breakE id =>
    exact fun s => ⟨_, rfl, by simpa [expr_ids] using (WalkStep.insert id _ s)⟩
  | .againE id =>
    exact fun s => ⟨_, rfl, by simpa [expr_ids] using (WalkStep.insert id _ s)⟩
  | .pathE id =>
    exact fun s => ⟨_, rfl, by simpa [expr_ids] using (WalkStep.insert id _ s)⟩
  | .cast id sub | .typeAsc id sub | .addrOf id sub
  | .field id sub | .tupField id sub | .boxE id sub | .unary id sub =>
    intro s
    obtain ⟨s1, h1, st1⟩ :=
      walk_expr_spec sub (mapInsert id (stackTop s.scope_stack).scope_metadata s)
    refine ⟨s1, ?_, ?_⟩
    · simp only [walk_expr_eq_cast, walk_expr_eq_typeAsc, walk_expr_eq_addrOf,
        walk_expr_eq_field, walk_expr_eq_tupField, walk_expr_eq_boxE,
        walk_expr_eq_unary, h1]
    · simpa [expr_ids] using ((WalkStep.insert id _ s).trans st1)
  | .ret id (some sub) =>
    intro s
    obtain ⟨s1, h1, st1⟩ :=
      walk_expr_spec sub (mapInsert id (stackTop s.scope_stack).scope_metadata s)
    refine ⟨s1, ?_, ?_⟩
    · simp only [walk_expr_eq_ret_some, h1]
    · simpa [expr_ids] using ((WalkStep.insert id _ s).trans st1)
  | .ret id none =>
    exact fun s => ⟨_, rfl, by simpa [expr_ids] using (WalkStep.insert id _ s)⟩
  | .assignOp id lhs rhs | .index id lhs rhs | .binary id lhs rhs
  | .assign id lhs rhs | .repeatE id lhs rhs =>
    intro s
    obtain ⟨s1, h1, st1⟩ :=
      walk_expr_spec lhs (mapInsert id (stackTop s.scope_stack).scope_metadata s)
    obtain ⟨s2, h2, st2⟩ := walk_expr_spec rhs s1
    refine ⟨s2, ?_, ?_⟩
    · simp only [walk_expr_eq_assignOp, walk_expr_eq_index, walk_expr_eq_binary,
        walk_expr_eq_assign, walk_expr_eq_repeatE, h1, ok_bind]
      exact h2
    · simpa [expr_ids, List.append_assoc] using
        ((WalkStep.insert id _ s).trans (st1.trans st2))
  | .vecE id inits | .tupE id inits | .methodCall id inits =>
    intro s
    obtain ⟨s1, h1, st1⟩ :=
      walk_exprs_spec inits (mapInsert id (stackTop s.scope_stack).scope_metadata s)
    refine ⟨s1, ?_, ?_⟩
    · simp only [walk_expr_eq_vecE, walk_expr_eq_tupE, walk_expr_eq_methodCall, h1]
    · simpa [expr_ids] using ((WalkStep.insert id _ s).trans st1)
  | .ifE id cond thenBlock elseOpt =>
    intro s
    obtain ⟨s1, h1, st1⟩ :=
      walk_expr_spec cond (mapInsert id (stackTop s.scope_stack).scope_metadata s)
    obtain ⟨s2, h2, st2, hstk2⟩ := with_new_scope_total thenBlock.span
      (block_ids thenBlock) (fun u => walk_block thenBlock u)
      (walk_block_spec thenBlock) s1
    match elseOpt with
    | some elseExp =>
      obtain ⟨s3, h3, st3⟩ := walk_expr_spec elseExp s2
      refine ⟨s3, ?_, ?_⟩
      · simp only [walk_expr_eq_ifE_some, h1, h2, ok_bind]
        exact h3
      · simpa [expr_ids, List.append_assoc] using
          ((WalkStep.insert id _ s).trans (st1.trans (st2.trans st3)))
    | none =>
      refine ⟨s2, ?_, ?_⟩
      · simp only [walk_expr_eq_ifE_none, h1, h2, ok_bind]
      · simpa [expr_ids, List.append_assoc] using
          ((WalkStep.insert id _ s).trans (st1.trans st2))
  | .whileE id cond loopBody =>
    intro s
    obtain ⟨s1, h1, st1⟩ :=
      walk_expr_spec cond (mapInsert id (stackTop s.scope_stack).scope_metadata s)
    obtain ⟨s2, h2, st2, hstk2⟩ := with_new_scope_total loopBody.span
      (block_ids loopBody) (fun u => walk_block loopBody u)
      (walk_block_spec loopBody) s1
    refine ⟨s2, ?_, ?_⟩
    · simp only [walk_expr_eq_whileE, h1, ok_bind]
      exact h2
    · simpa [expr_ids, List.append_assoc] using
        ((WalkStep.insert id _ s).trans (st1.trans st2))
  | .loopE id body =>
    intro s
    obtain ⟨s2, h2, st2, hstk2⟩ := with_new_scope_total body.span
      (block_ids body) (fun u => walk_block body u)
      (walk_block_spec body) (mapInsert id (stackTop s.scope_stack).scope_metadata s)
    refine ⟨s2, ?_, ?_⟩
    · simp only [walk_expr_eq_loopE, h2]
    · simpa [expr_ids] using ((WalkStep.insert id _ s).trans st2)
  | .blockE id body =>
    intro s
    obtain ⟨s2, h2, st2, hstk2⟩ := with_new_scope_total body.span
      (block_ids body) (fun u => walk_block body u)
      (walk_block_spec body) (mapInsert id (stackTop s.scope_stack).scope_metadata s)
    refine ⟨s2, ?_, ?_⟩
    · simp only [walk_expr_eq_blockE, h2]
    · simpa [expr_ids] using ((WalkStep.insert id _ s).trans st2)
  | .closure id inputs body =>
    intro s
    obtain ⟨s2, h2, st2, hstk2⟩ := with_new_scope_total body.span
      (pats_ids inputs ++ block_ids body)
      (fun u => walk_patterns inputs u >>= fun u => walk_block body u)
      ((walk_patterns_spec inputs).bind (walk_block_spec body))
      (mapInsert id (stackTop s.scope_stack).scope_metadata s)
    refine ⟨s2, ?_, ?_⟩
    · simp only [walk_expr_eq_closure, h2]
    · simpa [expr_ids] using ((WalkStep.insert id _ s).trans st2)
  | .call id fnExp args =>
    intro s
    obtain ⟨s1, h1, st1⟩ :=
      walk_expr_spec fnExp (mapInsert id (stackTop s.scope_stack).scope_metadata s)
    obtain ⟨s2, h2, st2⟩ := walk_exprs_spec args s1
    refine ⟨s2, ?_, ?_⟩
    · simp only [walk_expr_eq_call, h1, ok_bind]
      exact h2
    · simpa [expr_ids, List.append_assoc] using
        ((WalkStep.insert id _ s).trans (st1.trans st2))
  | .matchE id discriminant arms =>
    intro s
    obtain ⟨s1, h1, st1⟩ :=
      walk_expr_spec discriminant (mapInsert id (stackTop s.scope_stack).scope_metadata s)
    obtain ⟨s2, h2, st2⟩ := walk_arms_spec arms s1
    refine ⟨s2, ?_, ?_⟩
    · simp only [walk_expr_eq_matchE, h1, ok_bind]
      exact h2
    · simpa [expr_ids, List.append_assoc] using
        ((WalkStep.insert id _ s).trans (st1.trans st2))
  | .structE id fields base =>
    intro s
    obtain ⟨s1, h1, st1⟩ :=
      walk_exprs_spec fields (mapInsert id (stackTop s.scope_stack).scope_metadata s)
    match base with
    | some exp =>
      obtain ⟨s2, h2, st2⟩ := walk_expr_spec exp s1
      refine ⟨s2, ?_, ?_⟩
      · simp only [walk_expr_eq_structE_some, h1, ok_bind]
        exact h2
      · simpa [expr_ids, List.append_assoc] using
          ((WalkStep.insert id _ s).trans (st1.trans st2))
    | none =>
      refine ⟨s1, ?_, ?_⟩
      · simp only [walk_expr_eq_structE_none, h1, ok_bind]
      · simpa [expr_ids] using ((WalkStep.insert id _ s).trans st1)
  | .inlineAsm id outputs inputs =>
    intro s
    obtain ⟨s1, h1, st1⟩ :=
      walk_exprs_spec outputs (mapInsert id (stackTop s.scope_stack).scope_metadata s)
    obtain ⟨s2, h2, st2⟩ := walk_exprs_spec inputs s1
    refine ⟨s2, ?_, ?_⟩
    · simp only [walk_expr_eq_inlineAsm, h1, ok_bind]
      exact h2
    · simpa [expr_ids, List.append_assoc] using
        ((WalkStep.insert id _ s).trans (st1.trans st2))
termination_by sizeOf exp

/-- Walking an expression list succeeds with the expressions' node ids. -/
theorem walk_exprs_spec (exps : List Expr) :
    WalkTotal (exprs_ids exps) (walk_exprs exps) := by
  match exps with
  | [] => exact fun s => ⟨s, rfl, WalkStep.refl s⟩
  | e :: rest =>
    intro s
    obtain ⟨s1, h1, st1⟩ := walk_expr_spec e s
    obtain ⟨s2, h2, st2⟩ := walk_exprs_spec rest s1
    refine ⟨s2, ?_, ?_⟩
    · simp only [walk_exprs_eq_cons, h1, ok_bind]
      exact h2
    · simpa [exprs_ids] using (st1.trans st2)
termination_by sizeOf exps

/-- Walking match arms succeeds with the arms' node ids; each arm's scope
is closed back to the incoming stack before the next arm is walked. -/
theorem walk_arms_spec (arms : List Arm) :
    WalkTotal (arms_ids arms) (walk_arms arms) := by
  match arms with
  | [] => exact fun s => ⟨s, rfl, WalkStep.refl s⟩
  | .mk pats (some guardExp) body :: rest =>
    intro s
    obtain ⟨s1, h1, st1, hstk1⟩ := with_new_scope_total (pats.headI).span
      (pats_ids pats ++ (expr_ids guardExp ++ expr_ids body))
      (fun u => walk_patterns pats u >>=
        fun u => walk_expr guardExp u >>= fun u => walk_expr body u)
      ((walk_patterns_spec pats).bind
        ((walk_expr_spec guardExp).bind (walk_expr_spec body))) s
    obtain ⟨s2, h2, st2⟩ := walk_arms_spec rest s1
    refine ⟨s2, ?_, ?_⟩
    · simp only [walk_arms_eq_cons_some, h1, ok_bind]
      exact h2
    · simpa [arms_ids, List.append_assoc] using (st1.trans st2)
  | .mk pats none body :: rest =>
    intro s
    obtain ⟨s1, h1, st1, hstk1⟩ := with_new_scope_total (pats.headI).span
      (pats_ids pats ++ expr_ids body)
      (fun u => walk_patterns pats u >>= fun u => walk_expr body u)
      ((walk_patterns_spec pats).bind (walk_expr_spec body)) s
    obtain ⟨s2, h2, st2⟩ := walk_arms_spec rest s1
    refine ⟨s2, ?_, ?_⟩
    · simp only [walk_arms_eq_cons_none, h1, ok_bind]
      exact h2
    · simpa [arms_ids, List.append_assoc] using (st1.trans st2)
termination_by sizeOf arms

end

/-- The inner binding loop of `arg_entries`, fully characterized: it
prepends one named stack entry and one map entry per binding, touching
nothing else. -/
theorem bindings_fold_state (fn_metadata : Nat) (bs : List (Nat × String)) (s : WalkState) :
    bs.foldl (fun s b =>
      { s with
        scope_stack := ⟨fn_metadata, some b.2⟩ :: s.scope_stack,
        scope_map := (b.1, fn_metadata) :: s.scope_map }) s =
    { s with
      scope_stack :=
        (bs.map fun b => (⟨fn_metadata, some b.2⟩ : ScopeStackEntry)).reverse
          ++ s.scope_stack,
      scope_map := (bs.map fun b => (b.1, fn_metadata)).reverse ++ s.scope_map } := by
  induction bs generalizing s with
  | nil => simp
  | cons b rest ih =>
    rw [List.foldl_cons, ih]
    simp

/-- `arg_entries`, fully characterized: one named entry (keyed to the
function handle) and one map entry per argument binding, with the counter
and the creation log untouched (no scope creation, no shadow check). -/
theorem arg_entries_state (fn_metadata : Nat) (args : List Pat) (s : WalkState) :
    arg_entries fn_metadata args s =
    { s with
      scope_stack :=
        ((pats_bindings args).map fun b => (⟨fn_metadata, some b.2⟩ : ScopeStackEntry)).reverse
          ++ s.scope_stack,
      scope_map :=
        ((pats_bindings args).map fun b => (b.1, fn_metadata)).reverse ++ s.scope_map } := by
  induction args generalizing s with
  | nil => simp [arg_entries, pats_bindings]
  | cons a rest ih =>
    show arg_entries fn_metadata rest
        ((pat_bindings a).foldl _ s) = _
    rw [bindings_fold_state, ih]
    simp [pats_bindings, List.append_assoc]

/-- Full specification of `create_scope_map`: the walk always succeeds
(the scope-closing consistency check never fires) and the scope-map
insertion log carries exactly one entry per node reachable from the
function node, the argument bindings and the body, in visit order. -/
theorem create_scope_map_spec (args : List Pat) (b : Block) (fn_metadata fn_ast_id : Nat) :
    ∃ st, create_scope_map args b fn_metadata fn_ast_id = .ok st ∧
      mapKeys st = (fn_ids args b fn_ast_id).reverse := by
  obtain ⟨st, hrun, hstep, hstk⟩ := with_new_scope_total b.span (block_ids b)
    (fun u => walk_block b u) (walk_block_spec b)
    (arg_entries fn_metadata args
      { counter := fn_metadata + 1, created := [],
        scope_stack := [⟨fn_metadata, none⟩],
        scope_map := [(fn_ast_id, fn_metadata)] })
  refine ⟨st, hrun, ?_⟩
  obtain ⟨_, hmap⟩ := hstep
  rw [hmap, arg_entries_state]
  simp [mapKeys, fn_ids, List.map_reverse, List.append_assoc,
    Function.comp]

/-- `List.getD` after `List.set` at a different index is unchanged. -/
theorem getD_set_ne :
    ∀ (l : List (Option Nat)) (j i : Nat) (x : Option Nat), i ≠ j →
      (l.set j x).getD i none = l.getD i none
  | [], _, _, _, _ => rfl
  | _ :: _, 0, 0, _, h => absurd rfl h
  | _ :: _, 0, _ + 1, _, _ => rfl
  | _ :: _, _ + 1, 0, _, _ => rfl
  | _ :: l, j + 1, i + 1, x, h => getD_set_ne l j i x (fun e => h (by omega))

/-- `List.getD` after an in-bounds `List.set` at the same index. -/
theorem getD_set_self :
    ∀ (l : List (Option Nat)) (j : Nat) (x : Option Nat), j < l.length →
      (l.set j x).getD j none = x
  | [], _, _, h => absurd h (by simp)
  | _ :: _, 0, _, _ => rfl
  | _ :: l, j + 1, x, h => getD_set_self l j x (by simpa using h)

/-- Every slot of the freshly allocated all-null table reads as null. -/
theorem getD_replicate_none :
    ∀ (n i : Nat), (List.replicate n (none : Option Nat)).getD i none = none
  | 0, _ => rfl
  | _ + 1, 0 => rfl
  | n + 1, i + 1 => getD_replicate_none n i

/-- One-step unfolding of `make_mir_scope` at positive fuel. -/
theorem make_mir_scope_eq (mir : Mir) (hv : Nat → Bool) (fn fuel idx : Nat) (s : MirState) :
    make_mir_scope mir hv fn (fuel + 1) idx s =
      if (s.scopes.getD idx none).isSome then s
      else
        match (mir.scopes.getD idx default).parent_scope with
        | none => { s with scopes := s.scopes.set idx (some fn) }
        | some parent =>
          let s1 := make_mir_scope mir hv fn fuel parent s
          let parent_scope := (s1.scopes.getD parent none).getD 0
          if hv idx = false ∧ parent_scope ≠ fn then
            { s1 with scopes := s1.scopes.set idx (some parent_scope) }
          else
            { counter := s1.counter + 1,
              created := (s1.counter, parent_scope, (mir.scopes.getD idx default).span)
                :: s1.created,
              scopes := s1.scopes.set idx (some s1.counter) } := rfl

/-- Memoization: an already-resolved scope is returned unchanged. -/
theorem make_mir_scope_memo (mir : Mir) (hv : Nat → Bool) (fn fuel idx : Nat)
    (s : MirState) (h : (s.scopes.getD idx none).isSome = true) :
    make_mir_scope mir hv fn fuel idx s = s := by
  cases fuel with
  | zero => rfl
  | succ fuel => rw [make_mir_scope_eq, if_pos h]

/-- `make_mir_scope` never changes the length of the output table. -/
theorem make_mir_scope_length (mir : Mir) (hv : Nat → Bool) (fn : Nat) :
    ∀ (fuel idx : Nat) (s : MirState),
      (make_mir_scope mir hv fn fuel idx s).scopes.length = s.scopes.length := by
  intro fuel
  induction fuel with
  | zero => intro idx s; rfl
  | succ fuel ih =>
    intro idx s
    rw [make_mir_scope_eq]
    by_cases hmemo : (s.scopes.getD idx none).isSome = true
    · rw [if_pos hmemo]
    · rw [if_neg hmemo]
      cases hp : (mir.scopes.getD idx default).parent_scope with
      | none => simp
      | some parent =>
        simp only []
        split
        · simp [ih parent s]
        · simp [ih parent s]

/-- `make_mir_scope` only extends the creation log. -/
theorem make_mir_scope_created (mir : Mir) (hv : Nat → Bool) (fn : Nat) :
    ∀ (fuel idx : Nat) (s : MirState) (e : Nat × Nat × Nat),
      e ∈ s.created → e ∈ (make_mir_scope mir hv fn fuel idx s).created := by
  intro fuel
  induction fuel with
  | zero => intro idx s e h; exact h
  | succ fuel ih =>
    intro idx s e h
    rw [make_mir_scope_eq]
    by_cases hmemo : (s.scopes.getD idx none).isSome = true
    · rw [if_pos hmemo]; exact h
    · rw [if_neg hmemo]
      cases hp : (mir.scopes.getD idx default).parent_scope with
      | none => exact h
      | some parent =>
        simp only []
        split
        · exact ih parent s e h
        · exact List.mem_cons_of_mem _ (ih parent s e h)

/-- Monotonicity of the resolved table: once a slot holds a handle, any
further `make_mir_scope` call leaves exactly that handle in the slot. -/
theorem make_mir_scope_mono (mir : Mir) (hv : Nat → Bool) (fn : Nat) :
    ∀ (fuel idx : Nat) (s : MirState) (i v : Nat),
      s.scopes.getD i none = some v →
      (make_mir_scope mir hv fn fuel idx s).scopes.getD i none = some v := by
  intro fuel
  induction fuel with
  | zero => intro idx s i v h; exact h
  | succ fuel ih =>
    intro idx s i v h
    by_cases hmemo : (s.scopes.getD idx none).isSome = true
    · rw [make_mir_scope_memo mir hv fn _ idx s hmemo]; exact h
    · have hidx : s.scopes.getD idx none = none := by
        cases hc : s.scopes.getD idx none with
        | none => rfl
        | some w => rw [hc] at hmemo; simp at hmemo
      have hne : i ≠ idx := by
        intro e; rw [e, hidx] at h; cases h
      rw [make_mir_scope_eq, if_neg hmemo]
      cases hp : (mir.scopes.getD idx default).parent_scope with
      | none =>
        show (s.scopes.set idx (some fn)).getD i none = some v
        rw [getD_set_ne _ _ _ _ hne]
        exact h
      | some parent =>
        simp only []
        split
        · show ((make_mir_scope mir hv fn fuel parent s).scopes.set idx _).getD i none
            = some v
          rw [getD_set_ne _ _ _ _ hne]
          exact ih parent s i v h
        · show ((make_mir_scope mir hv fn fuel parent s).scopes.set idx _).getD i none
            = some v
          rw [getD_set_ne _ _ _ _ hne]
          exact ih parent s i v h

/-- Well-formedness of the MIR scope tree as the MIR builder produces it:
a scope's parent precedes it in the scope array, which makes the parent
relation acyclic. -/
def MirWF (mir : Mir) : Prop :=
  ∀ i p, (mir.scopes.getD i default).parent_scope = some p → p < i

/-- The table invariant of the MIR resolver: every filled slot holds either
the function handle (for the parentless root), or exactly the handle
already stored for its parent (an ancestor), or a handle freshly created
for that scope — logged with the scope's own span and its parent's
resolved handle. -/
def SlotInv (mir : Mir) (fn_metadata : Nat) (s : MirState) : Prop :=
  ∀ i v, s.scopes.getD i none = some v →
    ((mir.scopes.getD i default).parent_scope = none ∧ v = fn_metadata) ∨
    (∃ p, (mir.scopes.getD i default).parent_scope = some p ∧
      s.scopes.getD p none = some v) ∨
    (∃ p h, (mir.scopes.getD i default).parent_scope = some p ∧
      s.scopes.getD p none = some h ∧
      (v, h, (mir.scopes.getD i default).span) ∈ s.created)

/-- Under well-formedness, resolving a scope touches no slot above it. -/
theorem make_mir_scope_untouched (mir : Mir) (hv : Nat → Bool) (fn : Nat)
    (hwf : MirWF mir) :
    ∀ (fuel idx : Nat) (s : MirState) (j : Nat), idx < j →
      (make_mir_scope mir hv fn fuel idx s).scopes.getD j none = s.scopes.getD j none := by
  intro fuel
  induction fuel with
  | zero => intro idx s j _; rfl
  | succ fuel ih =>
    intro idx s j hj
    by_cases hmemo : (s.scopes.getD idx none).isSome = true
    · rw [make_mir_scope_memo mir hv fn _ idx s hmemo]
    · rw [make_mir_scope_eq, if_neg hmemo]
      cases hp : (mir.scopes.getD idx default).parent_scope with
      | none =>
        show (s.scopes.set idx (some fn)).getD j none = s.scopes.getD j none
        exact getD_set_ne _ _ _ _ (by omega)
      | some parent =>
        have hpi : parent < idx := hwf idx parent hp
        simp only []
        split
        · show ((make_mir_scope mir hv fn fuel parent s).scopes.set idx _).getD j none
            = s.scopes.getD j none
          rw [getD_set_ne _ _ _ _ (by omega)]
          exact ih parent s j (by omega)
        · show ((make_mir_scope mir hv fn fuel parent s).scopes.set idx _).getD j none
            = s.scopes.getD j none
          rw [getD_set_ne _ _ _ _ (by omega)]
          exact ih parent s j (by omega)

/-- Under well-formedness and sufficient fuel, resolving an in-bounds
scope leaves its slot filled. -/
theorem make_mir_scope_fills (mir : Mir) (hv : Nat → Bool) (fn : Nat)
    (_hwf : MirWF mir) :
    ∀ (fuel idx : Nat) (s : MirState),
      s.scopes.length = mir.scopes.length → idx < mir.scopes.length → idx < fuel →
      ((make_mir_scope mir hv fn fuel idx s).scopes.getD idx none).isSome = true := by
  intro fuel
  induction fuel with
  | zero => intro idx s _ _ h; omega
  | succ fuel ih =>
    intro idx s hlen hidx _
    by_cases hmemo : (s.scopes.getD idx none).isSome = true
    · rw [make_mir_scope_memo mir hv fn _ idx s hmemo]; exact hmemo
    · rw [make_mir_scope_eq, if_neg hmemo]
      cases hp : (mir.scopes.getD idx default).parent_scope with
      | none =>
        show ((s.scopes.set idx (some fn)).getD idx none).isSome = true
        rw [getD_set_self _ _ _ (by omega)]
        rfl
      | some parent =>
        simp only []
        split
        · show (((make_mir_scope mir hv fn fuel parent s).scopes.set idx _).getD
              idx none).isSome = true
          rw [getD_set_self _ _ _
            (by rw [make_mir_scope_length]; omega)]
          rfl
        · show (((make_mir_scope mir hv fn fuel parent s).scopes.set idx _).getD
              idx none).isSome = true
          rw [getD_set_self _ _ _
            (by rw [make_mir_scope_length]; omega)]
          rfl

/-- `make_mir_scope` preserves the table invariant on a well-formed tree
when given enough fuel to resolve the whole parent chain. -/
theorem make_mir_scope_inv (mir : Mir) (hv : Nat → Bool) (fn : Nat) (hwf : MirWF mir) :
    ∀ (fuel idx : Nat) (s : MirState),
      s.scopes.length = mir.scopes.length → idx < mir.scopes.length → idx < fuel →
      SlotInv mir fn s → SlotInv mir fn (make_mir_scope mir hv fn fuel idx s) := by
  intro fuel
  induction fuel with
  | zero => intro idx s _ _ h; omega
  | succ fuel ih =>
    intro idx s hlen hidx hfuel hinv
    by_cases hmemo : (s.scopes.getD idx none).isSome = true
    · rw [make_mir_scope_memo mir hv fn _ idx s hmemo]; exact hinv
    · have hidxnone : s.scopes.getD idx none = none := by
        cases hc : s.scopes.getD idx none with
        | none => rfl
        | some w => rw [hc] at hmemo; simp at hmemo
      rw [make_mir_scope_eq, if_neg hmemo]
      cases hp : (mir.scopes.getD idx default).parent_scope with
      | none =>
        intro i v hi
        have hi' : (s.scopes.set idx (some fn)).getD i none = some v := hi
        by_cases hie : i = idx
        · subst hie
          rw [getD_set_self _ _ _ (by omega)] at hi'
          cases hi'
          exact Or.inl ⟨hp, rfl⟩
        · rw [getD_set_ne _ _ _ _ hie] at hi'
          rcases hinv i v hi' with h1 | ⟨p, hpp, hslot⟩ | ⟨p, h, hpp, hslot, hcr⟩
          · exact Or.inl h1
          · refine Or.inr (Or.inl ⟨p, hpp, ?_⟩)
            show (s.scopes.set idx (some fn)).getD p none = some v
            by_cases hpe : p = idx
            · subst hpe; rw [hidxnone] at hslot; cases hslot
            · rw [getD_set_ne _ _ _ _ hpe]; exact hslot
          · refine Or.inr (Or.inr ⟨p, h, hpp, ?_, hcr⟩)
            show (s.scopes.set idx (some fn)).getD p none = some h
            by_cases hpe : p = idx
            · subst hpe; rw [hidxnone] at hslot; cases hslot
            · rw [getD_set_ne _ _ _ _ hpe]; exact hslot
      | some parent =>
        have hpi : parent < idx := hwf idx parent hp
        have hlen1 : (make_mir_scope mir hv fn fuel parent s).scopes.length
            = mir.scopes.length := by rw [make_mir_scope_length]; exact hlen
        have hinv1 : SlotInv mir fn (make_mir_scope mir hv fn fuel parent s) :=
          ih parent s hlen (by omega) (by omega) hinv
        have hidx1 : (make_mir_scope mir hv fn fuel parent s).scopes.getD idx none
            = none := by
          rw [make_mir_scope_untouched mir hv fn hwf fuel parent s idx hpi]
          exact hidxnone
        have hfill : (((make_mir_scope mir hv fn fuel parent s).scopes.getD parent
            none)).isSome = true :=
          make_mir_scope_fills mir hv fn hwf fuel parent s hlen (by omega) (by omega)
        obtain ⟨h0, hpareq⟩ : ∃ h0,
            (make_mir_scope mir hv fn fuel parent s).scopes.getD parent none = some h0 := by
          cases hc : (make_mir_scope mir hv fn fuel parent s).scopes.getD parent none with
          | none => rw [hc] at hfill; simp at hfill
          | some w => exact ⟨w, rfl⟩
        simp only [hpareq, Option.getD_some]
        split
        · intro i v hi
          have hi' : ((make_mir_scope mir hv fn fuel parent s).scopes.set idx
              (some h0)).getD i none = some v := hi
          by_cases hie : i = idx
          · subst hie
            rw [getD_set_self _ _ _ (by omega)] at hi'
            cases hi'
            refine Or.inr (Or.inl ⟨parent, hp, ?_⟩)
            show ((make_mir_scope mir hv fn fuel parent s).scopes.set i
              (some h0)).getD parent none = some h0
            rw [getD_set_ne _ _ _ _ (by omega)]
            exact hpareq
          · rw [getD_set_ne _ _ _ _ hie] at hi'
            rcases hinv1 i v hi' with h1 | ⟨p, hpp, hslot⟩ | ⟨p, h, hpp, hslot, hcr⟩
            · exact Or.inl h1
            · refine Or.inr (Or.inl ⟨p, hpp, ?_⟩)
              show ((make_mir_scope mir hv fn fuel parent s).scopes.set idx
                (some h0)).getD p none = some v
              by_cases hpe : p = idx
              · subst hpe; rw [hidx1] at hslot; cases hslot
              · rw [getD_set_ne _ _ _ _ hpe]; exact hslot
            · refine Or.inr (Or.inr ⟨p, h, hpp, ?_, hcr⟩)
              show ((make_mir_scope mir hv fn fuel parent s).scopes.set idx
                (some h0)).getD p none = some h
              by_cases hpe : p = idx
              · subst hpe; rw [hidx1] at hslot; cases hslot
              · rw [getD_set_ne _ _ _ _ hpe]; exact hslot
        · intro i v hi
          have hi' : ((make_mir_scope mir hv fn fuel parent s).scopes.set idx
              (some (make_mir_scope mir hv fn fuel parent s).counter)).getD i none
              = some v := hi
          by_cases hie : i = idx
          · subst hie
            rw [getD_set_self _ _ _ (by omega)] at hi'
            cases hi'
            refine Or.inr (Or.inr ⟨parent, h0, hp, ?_, ?_⟩)
            · show ((make_mir_scope mir hv fn fuel parent s).scopes.set i
                (some (make_mir_scope mir hv fn fuel parent s).counter)).getD parent none
                = some h0
              rw [getD_set_ne _ _ _ _ (by omega)]
              exact hpareq
            · exact List.mem_cons_self _ _
          · rw [getD_set_ne _ _ _ _ hie] at hi'
            rcases hinv1 i v hi' with h1 | ⟨p, hpp, hslot⟩ | ⟨p, h, hpp, hslot, hcr⟩
            · exact Or.inl h1
            · refine Or.inr (Or.inl ⟨p, hpp, ?_⟩)
              show ((make_mir_scope mir hv fn fuel parent s).scopes.set idx
                (some (make_mir_scope mir hv fn fuel parent s).counter)).getD p none
                = some v
              by_cases hpe : p = idx
              · subst hpe; rw [hidx1] at hslot; cases hslot
              · rw [getD_set_ne _ _ _ _ hpe]; exact hslot
            · refine Or.inr (Or.inr ⟨p, h, hpp, ?_, ?_⟩)
              · show ((make_mir_scope mir hv fn fuel parent s).scopes.set idx
                  (some (make_mir_scope mir hv fn fuel parent s).counter)).getD p none
                  = some h
                by_cases hpe : p = idx
                · subst hpe; rw [hidx1] at hslot; cases hslot
                · rw [getD_set_ne _ _ _ _ hpe]; exact hslot
              · exact List.mem_cons_of_mem _ hcr

/-- The instantiation loop of `create_mir_scopes` preserves the table
invariant when every index it visits is in bounds. -/
theorem foldl_make_mir_scope_inv (mir : Mir) (hv : Nat → Bool) (fn : Nat)
    (hwf : MirWF mir) :
    ∀ (l : List Nat) (s : MirState),
      (∀ x ∈ l, x < mir.scopes.length) →
      s.scopes.length = mir.scopes.length → SlotInv mir fn s →
      SlotInv mir fn
        (l.foldl (fun s idx => make_mir_scope mir hv fn mir.scopes.length idx s) s) := by
  intro l
  induction l with
  | nil => intro s _ _ h; exact h
  | cons x xs ih =>
    intro s hmem hlen hinv
    rw [List.foldl_cons]
    refine ih _ (fun y hy => hmem y (by simp [hy])) ?_ ?_
    · rw [make_mir_scope_length]; exact hlen
    · exact make_mir_scope_inv mir hv fn hwf mir.scopes.length x s hlen
        (hmem x (by simp)) (hmem x (by simp)) hinv

/-! Concrete example programs used by the testable properties of the
specification. -/

/-- The body `{ let x = 1; { let x = 2; USE_HERE } }`, with `USE_HERE` the
path expression `112`: the outer `let x` binds node `103`, the inner block
is node `107`, the inner (shadowing) `let x` binds node `110`. -/
def shadowExample : Block :=
  .mk 100 1000
    [.decl 101 (.local 102 (.ident 103 1003 "x" true none) (some (.lit 104)))]
    (some (.blockE 106 (.mk 107 1007
      [.decl 108 (.local 109 (.ident 110 1010 "x" true none) (some (.lit 111)))]
      (some (.pathE 112)))))

/-- The body `{ let x = 1; { let y = 2; USE_HERE } }`: as `shadowExample`
but the inner binding (node `110`) is named `y`, so no name collides. -/
def noShadowExample : Block :=
  .mk 100 1000
    [.decl 101 (.local 102 (.ident 103 1003 "x" true none) (some (.lit 104)))]
    (some (.blockE 106 (.mk 107 1007
      [.decl 108 (.local 109 (.ident 110 1010 "y" true none) (some (.lit 111)))]
      (some (.pathE 112)))))

/-- A body that is a two-arm match in which both arms bind the name `n`:
arm one binds node `203` and its body is node `204`, arm two binds node
`205` with body `206`. -/
def matchExample : Block :=
  .mk 200 2000 []
    (some (.matchE 201 (.pathE 202)
      [.mk [.ident 203 2003 "n" true none] none (.pathE 204),
       .mk [.ident 205 2005 "n" true none] none (.pathE 206)]))

/-- A function body holding a closure whose parameters are `b` (node
`302`) and `a` (node `304`), where `a` collides with the enclosing
function's parameter of the same name. -/
def closureExample : Block :=
  .mk 310 3100 []
    (some (.closure 311
      [.ident 302 3020 "b" true none, .ident 304 3040 "a" true none]
      (.mk 312 3120 [] none)))

/-- The function parameter list `(a, a)` used with `closureExample`: two
same-named parameters, which the argument loop registers without any
shadow check. -/
def closureArgs : List Pat :=
  [.ident 300 3000 "a" true none, .ident 301 3001 "a" true none]

/-- The scope-map insertion log of a finished walk (the `NodeMap` the
caller receives); an aborted walk has no map. -/
def scopeMapOf : Except Nat WalkState → List (Nat × Nat)
  | .ok st => st.scope_map
  | .error _ => []

/-- The creation-call log of a finished walk. -/
def createdOf : Except Nat WalkState → List (Nat × Nat × Nat)
  | .ok st => st.created
  | .error _ => []

theorem pat_bindings_eq_ident_true (id sp : Nat) (name : String) :
    pat_bindings (.ident id sp name true none) = [(id, name)] := rfl

/-- The full result of walking `shadowExample`: the shadow-check fires at
the inner `x`, creating the artificial scope `8` under the inner block
scope `7`. -/
theorem shadowExample_run : create_scope_map [] shadowExample 5 99 =
    .ok { counter := 9,
          created := [(8, 7, 1010), (7, 6, 1007), (6, 5, 1000)],
          scope_stack := [⟨5, none⟩],
          scope_map := [(112, 8), (111, 8), (110, 8), (109, 7), (108, 7), (107, 7),
            (106, 6), (104, 6), (103, 6), (102, 6), (101, 6), (100, 6), (99, 5)] } := by
  simp only [create_scope_map, arg_entries, shadowExample, Block.span, with_new_scope,
    createLexicalBlock, stackTop, mapInsert, popArtificial,
    walk_block_eq_some, walk_block_eq_none, walk_stmts_eq_nil, walk_stmts_eq_decl,
    walk_stmts_eq_exprS, walk_stmts_eq_semi, walk_decl_eq_local_some,
    walk_decl_eq_local_none, walk_decl_eq_item, walk_pattern_eq_ident_some,
    walk_pattern_eq_ident_none, identPush, walk_expr_eq_lit, walk_expr_eq_pathE,
    walk_expr_eq_blockE, ok_bind, List.foldl_nil, List.headI, List.any, List.tail]
  simp [popArtificial, stackTop, List.headI, ok_bind, with_new_scope,
    createLexicalBlock, mapInsert, identPush, Pat.span, pat_bindings_eq_ident_true,
    walk_block_eq_some, walk_block_eq_none, walk_stmts_eq_nil, walk_stmts_eq_decl,
    walk_stmts_eq_exprS, walk_stmts_eq_semi, walk_decl_eq_local_some,
    walk_decl_eq_local_none, walk_pattern_eq_ident_some, walk_pattern_eq_ident_none,
    walk_patterns_eq_nil, walk_patterns_eq_cons, walk_expr_eq_lit, walk_expr_eq_pathE,
    walk_expr_eq_blockE, walk_expr_eq_matchE, walk_expr_eq_closure, walk_arms_eq_nil,
    walk_arms_eq_cons_none]

/-- The full result of walking `noShadowExample`: no collision, so `y` is
pushed reusing the inner block scope `7` and no third scope is created. -/
theorem noShadowExample_run : create_scope_map [] noShadowExample 5 99 =
    .ok { counter := 8,
          created := [(7, 6, 1007), (6, 5, 1000)],
          scope_stack := [⟨5, none⟩],
          scope_map := [(112, 7), (111, 7), (110, 7), (109, 7), (108, 7), (107, 7),
            (106, 6), (104, 6), (103, 6), (102, 6), (101, 6), (100, 6), (99, 5)] } := by
  simp only [create_scope_map, arg_entries, noShadowExample, Block.span, with_new_scope,
    createLexicalBlock, stackTop, mapInsert, popArtificial,
    walk_block_eq_some, walk_block_eq_none, walk_stmts_eq_nil, walk_stmts_eq_decl,
    walk_stmts_eq_exprS, walk_stmts_eq_semi, walk_decl_eq_local_some,
    walk_decl_eq_local_none, walk_decl_eq_item, walk_pattern_eq_ident_some,
    walk_pattern_eq_ident_none, identPush, walk_expr_eq_lit, walk_expr_eq_pathE,
    walk_expr_eq_blockE, ok_bind, List.foldl_nil, List.headI, List.any, List.tail]
  simp [popArtificial, stackTop, List.headI, ok_bind, with_new_scope,
    createLexicalBlock, mapInsert, identPush, Pat.span, pat_bindings_eq_ident_true,
    walk_block_eq_some, walk_block_eq_none, walk_stmts_eq_nil, walk_stmts_eq_decl,
    walk_stmts_eq_exprS, walk_stmts_eq_semi, walk_decl_eq_local_some,
    walk_decl_eq_local_none, walk_pattern_eq_ident_some, walk_pattern_eq_ident_none,
    walk_patterns_eq_nil, walk_patterns_eq_cons, walk_expr_eq_lit, walk_expr_eq_pathE,
    walk_expr_eq_blockE, walk_expr_eq_matchE, walk_expr_eq_closure, walk_arms_eq_nil,
    walk_arms_eq_cons_none]

/-- The full result of walking `matchExample`: one scope per arm (handles
`7` and `8`, both children of the body scope `6`), and the two same-named
bindings land in those distinct scopes. -/
theorem matchExample_run : create_scope_map [] matchExample 5 99 =
    .ok { counter := 9,
          created := [(8, 6, 2005), (7, 6, 2003), (6, 5, 2000)],
          scope_stack := [⟨5, none⟩],
          scope_map := [(206, 8), (205, 8), (204, 7), (203, 7), (202, 6), (201, 6),
            (200, 6), (99, 5)] } := by
  simp only [create_scope_map, arg_entries, matchExample, Block.span, Pat.span,
    with_new_scope, createLexicalBlock, stackTop, mapInsert, popArtificial,
    walk_block_eq_some, walk_block_eq_none, walk_stmts_eq_nil,
    walk_pattern_eq_ident_none, identPush, walk_patterns_eq_nil, walk_patterns_eq_cons,
    walk_expr_eq_lit, walk_expr_eq_pathE, walk_expr_eq_matchE, walk_arms_eq_nil,
    walk_arms_eq_cons_none, ok_bind, List.foldl_nil, List.headI, List.any, List.tail]
  simp [popArtificial, stackTop, List.headI, ok_bind, with_new_scope,
    createLexicalBlock, mapInsert, identPush, Pat.span, pat_bindings_eq_ident_true,
    walk_block_eq_some, walk_block_eq_none, walk_stmts_eq_nil, walk_stmts_eq_decl,
    walk_stmts_eq_exprS, walk_stmts_eq_semi, walk_decl_eq_local_some,
    walk_decl_eq_local_none, walk_pattern_eq_ident_some, walk_pattern_eq_ident_none,
    walk_patterns_eq_nil, walk_patterns_eq_cons, walk_expr_eq_lit, walk_expr_eq_pathE,
    walk_expr_eq_blockE, walk_expr_eq_matchE, walk_expr_eq_closure, walk_arms_eq_nil,
    walk_arms_eq_cons_none]

/-- The full result of walking `closureExample` with the two same-named
function parameters of `closureArgs`: the parameters are both registered
on the function handle `5` with no scope creation and no shadow check;
the closure's parameters are walked inside the closure body scope `7`,
where `b` reuses `7` and the colliding `a` receives the artificial scope
`8`. -/
theorem closureExample_run : create_scope_map closureArgs closureExample 5 99 =
    .ok { counter := 9,
          created := [(8, 7, 3040), (7, 6, 3120), (6, 5, 3100)],
          scope_stack := [⟨5, some "a"⟩, ⟨5, some "a"⟩, ⟨5, none⟩],
          scope_map := [(312, 8), (304, 8), (302, 7), (311, 6), (310, 6), (301, 5),
            (300, 5), (99, 5)] } := by
  simp only [create_scope_map, arg_entries, closureArgs, closureExample, Block.span,
    Pat.span, with_new_scope, createLexicalBlock, stackTop, mapInsert, popArtificial,
    pat_bindings_eq_ident_true,
    walk_block_eq_some, walk_block_eq_none, walk_stmts_eq_nil,
    walk_pattern_eq_ident_none, identPush, walk_patterns_eq_nil, walk_patterns_eq_cons,
    walk_expr_eq_lit, walk_expr_eq_pathE, walk_expr_eq_closure, ok_bind,
    List.foldl_cons, List.foldl_nil, List.headI, List.any, List.tail]
  simp [popArtificial, stackTop, List.headI, ok_bind, with_new_scope,
    createLexicalBlock, mapInsert, identPush, Pat.span, pat_bindings_eq_ident_true,
    walk_block_eq_some, walk_block_eq_none, walk_stmts_eq_nil, walk_stmts_eq_decl,
    walk_stmts_eq_exprS, walk_stmts_eq_semi, walk_decl_eq_local_some,
    walk_decl_eq_local_none, walk_pattern_eq_ident_some, walk_pattern_eq_ident_none,
    walk_patterns_eq_nil, walk_patterns_eq_cons, walk_expr_eq_lit, walk_expr_eq_pathE,
    walk_expr_eq_blockE, walk_expr_eq_matchE, walk_expr_eq_closure, walk_arms_eq_nil,
    walk_arms_eq_cons_none]

/-- C1: when the pattern walker reaches a binding pattern whose raw
textual name matches an entry anywhere on the scope stack, it creates
exactly one new backend lexical scope whose parent is the current
top-of-stack handle, pushes it as a named entry, and records the
pattern's node id under the fresh handle; consequently, in
`{ let x = 1; { let x = 2; USE_HERE } }` the handle recorded for
`USE_HERE` (node 112, handle 8) differs from the handle recorded for the
outer `x`'s binding (node 103, handle 6) and from the enclosing inner
block's own handle (node 107, handle 7). -/
theorem claim_C1 :
    (∀ (id sp : Nat) (name : String) (s : WalkState),
      (s.scope_stack.any fun entry => entry.name = some name) = true →
      walk_pattern (.ident id sp name true none) s =
        .ok { counter := s.counter + 1,
              created := (s.counter, (stackTop s.scope_stack).scope_metadata, sp)
                :: s.created,
              scope_stack := ⟨s.counter, some name⟩ :: s.scope_stack,
              scope_map := (id, s.counter) :: s.scope_map }) ∧
    (scopeMapLookup (scopeMapOf (create_scope_map [] shadowExample 5 99)) 112 = some 8 ∧
     scopeMapLookup (scopeMapOf (create_scope_map [] shadowExample 5 99)) 103 = some 6 ∧
     scopeMapLookup (scopeMapOf (create_scope_map [] shadowExample 5 99)) 107 = some 7 ∧
     (8 : Nat) ≠ 6 ∧ (8 : Nat) ≠ 7) := by
  constructor
  · intro id sp name s h
    rw [walk_pattern_eq_ident_none, identPush_pos sp name s h]
    rfl
  · rw [shadowExample_run]
    decide

/-- Witness for C1 at a concrete state whose stack already binds `y`. -/
theorem claim_C1_witness :
    walk_pattern (.ident 1 2 "y" true none)
      ⟨20, [], [⟨9, some "y"⟩, ⟨5, none⟩], []⟩ =
      .ok { counter := 21,
            created := [(20, 9, 2)],
            scope_stack := [⟨20, some "y"⟩, ⟨9, some "y"⟩, ⟨5, none⟩],
            scope_map := [(1, 20)] } :=
  claim_C1.1 1 2 "y" ⟨20, [], [⟨9, some "y"⟩, ⟨5, none⟩], []⟩ (by decide)

/-- C2: a binding pattern whose name matches no stack entry pushes a named
entry reusing the current top-of-stack handle and creates no backend scope
(counter and creation log unchanged); in
`{ let x = 1; { let y = 2; USE_HERE } }` the handle recorded for `y`
(node 110) equals the inner block's own handle (node 107, handle 7) and
the creation log holds only the body and inner-block scopes. -/
theorem claim_C2 :
    (∀ (id sp : Nat) (name : String) (s : WalkState),
      (s.scope_stack.any fun entry => entry.name = some name) = false →
      walk_pattern (.ident id sp name true none) s =
        .ok { s with
              scope_stack := ⟨(stackTop s.scope_stack).scope_metadata, some name⟩
                :: s.scope_stack,
              scope_map := (id, (stackTop s.scope_stack).scope_metadata)
                :: s.scope_map }) ∧
    (scopeMapLookup (scopeMapOf (create_scope_map [] noShadowExample 5 99)) 110 = some 7 ∧
     scopeMapLookup (scopeMapOf (create_scope_map [] noShadowExample 5 99)) 107 = some 7 ∧
     createdOf (create_scope_map [] noShadowExample 5 99) =
       [(7, 6, 1007), (6, 5, 1000)]) := by
  constructor
  · intro id sp name s h
    rw [walk_pattern_eq_ident_none, identPush_neg sp name s h]
    rfl
  · rw [noShadowExample_run]
    decide

/-- Witness for C2 at a concrete state whose stack does not bind `z`. -/
theorem claim_C2_witness :
    walk_pattern (.ident 1 2 "z" true none)
      ⟨20, [], [⟨9, some "y"⟩, ⟨5, none⟩], []⟩ =
      .ok { counter := 20,
            created := [],
            scope_stack := [⟨9, some "z"⟩, ⟨9, some "y"⟩, ⟨5, none⟩],
            scope_map := [(1, 9)] } :=
  claim_C2.1 1 2 "z" ⟨20, [], [⟨9, some "y"⟩, ⟨5, none⟩], []⟩ (by decide)

/-- C3: every match arm is walked inside one new child scope covering its
patterns, optional guard and body, and closing that scope restores the
scope stack exactly, so nothing an arm binds is on the stack when the
next arm's scope opens; concretely, two arms binding the same name `n`
record distinct handles (7 and 8) and the creation log shows exactly one
scope per arm besides the body scope. -/
theorem claim_C3 :
    (∀ (pats : List Pat) (guard : Option Expr) (body : Expr) (rest : List Arm)
       (s : WalkState), ∃ s1,
      with_new_scope (pats.headI).span
        (fun u => walk_patterns pats u >>= fun u =>
          (match guard with
           | some g => walk_expr g u
           | none => .ok u) >>= fun u => walk_expr body u) s = .ok s1 ∧
      s1.scope_stack = s.scope_stack ∧
      walk_arms (.mk pats guard body :: rest) s = walk_arms rest s1) ∧
    (scopeMapLookup (scopeMapOf (create_scope_map [] matchExample 5 99)) 203 = some 7 ∧
     scopeMapLookup (scopeMapOf (create_scope_map [] matchExample 5 99)) 205 = some 8 ∧
     (7 : Nat) ≠ 8 ∧
     createdOf (create_scope_map [] matchExample 5 99) =
       [(8, 6, 2005), (7, 6, 2003), (6, 5, 2000)]) := by
  constructor
  · intro pats guard body rest s
    match guard with
    | some g =>
      obtain ⟨s1, h1, st1, hstk1⟩ := with_new_scope_total (pats.headI).span
        (pats_ids pats ++ (expr_ids g ++ expr_ids body))
        (fun u => walk_patterns pats u >>=
          fun u => walk_expr g u >>= fun u => walk_expr body u)
        ((walk_patterns_spec pats).bind
          ((walk_expr_spec g).bind (walk_expr_spec body))) s
      refine ⟨s1, h1, hstk1, ?_⟩
      rw [walk_arms_eq_cons_some, h1, ok_bind]
    | none =>
      obtain ⟨s1, h1, st1, hstk1⟩ := with_new_scope_total (pats.headI).span
        (pats_ids pats ++ expr_ids body)
        (fun u => walk_patterns pats u >>= fun u => walk_expr body u)
        ((walk_patterns_spec pats).bind (walk_expr_spec body)) s
      refine ⟨s1, h1, hstk1, ?_⟩
      rw [walk_arms_eq_cons_none, h1, ok_bind]
  · rw [matchExample_run]
    decide

/-- C6: every `with_new_scope` call issued during the AST walk — around a
block (function body, `if` branch, loop body, bare block), around a
closure's parameters-plus-body, and around a match arm — succeeds with the
scope stack restored exactly, hence with equal depth, at arbitrary
nesting. -/
theorem claim_C6 :
    (∀ (b : Block) (sp : Nat) (s : WalkState), ∃ s',
      with_new_scope sp (fun u => walk_block b u) s = .ok s' ∧
      s'.scope_stack = s.scope_stack ∧
      s'.scope_stack.length = s.scope_stack.length) ∧
    (∀ (inputs : List Pat) (b : Block) (sp : Nat) (s : WalkState), ∃ s',
      with_new_scope sp
        (fun u => walk_patterns inputs u >>= fun u => walk_block b u) s = .ok s' ∧
      s'.scope_stack = s.scope_stack ∧
      s'.scope_stack.length = s.scope_stack.length) ∧
    (∀ (pats : List Pat) (guard : Option Expr) (body : Expr) (sp : Nat)
       (s : WalkState), ∃ s',
      with_new_scope sp
        (fun u => walk_patterns pats u >>= fun u =>
          (match guard with
           | some g => walk_expr g u
           | none => .ok u) >>= fun u => walk_expr body u) s = .ok s' ∧
      s'.scope_stack = s.scope_stack ∧
      s'.scope_stack.length = s.scope_stack.length) := by
  refine ⟨?_, ?_, ?_⟩
  · intro b sp s
    obtain ⟨s', h, _, hstk⟩ := with_new_scope_total sp (block_ids b)
      (fun u => walk_block b u) (walk_block_spec b) s
    exact ⟨s', h, hstk, by rw [hstk]⟩
  · intro inputs b sp s
    obtain ⟨s', h, _, hstk⟩ := with_new_scope_total sp
      (pats_ids inputs ++ block_ids b)
      (fun u => walk_patterns inputs u >>= fun u => walk_block b u)
      ((walk_patterns_spec inputs).bind (walk_block_spec b)) s
    exact ⟨s', h, hstk, by rw [hstk]⟩
  · intro pats guard body sp s
    match guard with
    | some g =>
      obtain ⟨s', h, _, hstk⟩ := with_new_scope_total sp
        (pats_ids pats ++ (expr_ids g ++ expr_ids body))
        (fun u => walk_patterns pats u >>=
          fun u => walk_expr g u >>= fun u => walk_expr body u)
        ((walk_patterns_spec pats).bind
          ((walk_expr_spec g).bind (walk_expr_spec body))) s
      exact ⟨s', h, hstk, by rw [hstk]⟩
    | none =>
      obtain ⟨s', h, _, hstk⟩ := with_new_scope_total sp
        (pats_ids pats ++ expr_ids body)
        (fun u => walk_patterns pats u >>= fun u => walk_expr body u)
        ((walk_patterns_spec pats).bind (walk_expr_spec body)) s
      exact ⟨s', h, hstk, by rw [hstk]⟩

/-- C7: for every function, `create_scope_map` succeeds and its insertion
log carries exactly the reachable node ids — the function node, the
argument bindings and every node of the body, each exactly once in visit
order; with globally distinct node ids no entry is ever written twice or
overwritten. -/
theorem claim_C7 (args : List Pat) (b : Block) (fn_metadata fn_ast_id : Nat) :
    ∃ st, create_scope_map args b fn_metadata fn_ast_id = .ok st ∧
      mapKeys st = (fn_ids args b fn_ast_id).reverse ∧
      ((fn_ids args b fn_ast_id).Nodup → (mapKeys st).Nodup) := by
  obtain ⟨st, h1, h2⟩ := create_scope_map_spec args b fn_metadata fn_ast_id
  refine ⟨st, h1, h2, fun hn => ?_⟩
  rw [h2]
  exact List.nodup_reverse.2 hn

/-- Witness for C7 on a minimal function body with distinct node ids. -/
theorem claim_C7_witness :
    ∃ st, create_scope_map [] (.mk 1 10 [] none) 5 99 = .ok st ∧
      mapKeys st = (fn_ids [] (.mk 1 10 [] none) 99).reverse ∧ (mapKeys st).Nodup := by
  obtain ⟨st, h1, h2, h3⟩ := claim_C7 [] (.mk 1 10 [] none) 5 99
  exact ⟨st, h1, h2, h3 (by decide)⟩

/-- C9: if, when a scope is closed, the top of stack after popping the
trailing named entries does not carry the handle created when the scope
was opened, `with_new_scope` aborts with the scope's span
(`span_bug!(scope_span, ...)`) instead of returning a scope map. -/
theorem claim_C9 (scope_span : Nat) (inner : WalkState → Except Nat WalkState)
    (s s1 : WalkState)
    (hrun : inner
      { s with counter := s.counter + 1,
               created := (s.counter, (stackTop s.scope_stack).scope_metadata, scope_span)
                 :: s.created,
               scope_stack := ⟨s.counter, none⟩ :: s.scope_stack } = .ok s1)
    (hmismatch : (stackTop (popArtificial s1.scope_stack)).scope_metadata ≠ s.counter) :
    with_new_scope scope_span inner s = .error scope_span := by
  simp only [with_new_scope, createLexicalBlock]
  rw [hrun]
  simp only []
  rw [if_neg hmismatch]

/-- Witness for C9: an inner walk that discards the whole stack trips the
consistency check, and the error names the scope's span. -/
theorem claim_C9_witness :
    with_new_scope 7 (fun _ => .ok ⟨0, [], [], []⟩) ⟨3, [], [⟨0, none⟩], []⟩ =
      .error 7 :=
  claim_C9 7 (fun _ => .ok ⟨0, [], [], []⟩) ⟨3, [], [⟨0, none⟩], []⟩ ⟨0, [], [], []⟩
    rfl (by decide)

/-- C10: the function's own parameters are registered by the argument loop
directly against the function handle with no shadow check and no scope
creation (counter and creation log untouched, even for same-named
parameters), whereas closure parameters are walked by the ordinary pattern
walk inside the closure body's newly opened scope: concretely, closure
parameter `b` (node 302) is recorded under the closure body scope `7`
(not the function handle `5`), and closure parameter `a` (node 304),
which textually collides with the function parameter `a`, receives its
own freshly created artificial scope `8`, logged with parent `7`. -/
theorem claim_C10 :
    (∀ (fn_metadata : Nat) (args : List Pat) (s : WalkState),
      (arg_entries fn_metadata args s).counter = s.counter ∧
      (arg_entries fn_metadata args s).created = s.created ∧
      (arg_entries fn_metadata args s).scope_map =
        ((pats_bindings args).map fun b => (b.1, fn_metadata)).reverse
          ++ s.scope_map) ∧
    (scopeMapLookup (scopeMapOf (create_scope_map closureArgs closureExample 5 99)) 300
        = some 5 ∧
     scopeMapLookup (scopeMapOf (create_scope_map closureArgs closureExample 5 99)) 301
        = some 5 ∧
     scopeMapLookup (scopeMapOf (create_scope_map closureArgs closureExample 5 99)) 302
        = some 7 ∧
     scopeMapLookup (scopeMapOf (create_scope_map closureArgs closureExample 5 99)) 304
        = some 8 ∧
     (7 : Nat) ≠ 5 ∧ (8 : Nat) ≠ 7 ∧ (8 : Nat) ≠ 5 ∧
     createdOf (create_scope_map closureArgs closureExample 5 99) =
       [(8, 7, 3040), (7, 6, 3120), (6, 5, 3100)]) := by
  constructor
  · intro fn_metadata args s
    rw [arg_entries_state]
    exact ⟨rfl, rfl, rfl⟩
  · rw [closureExample_run]
    decide

/-- C4: in `make_mir_scope`, a scope owning no variables whose parent's
resolved handle is not the function handle is assigned exactly the
parent's handle with no creation call (counter and creation log
untouched); a scope owning no variables whose parent resolved to the
function handle still receives a freshly created handle. -/
theorem claim_C4 (mir : Mir) (hv : Nat → Bool) (fn fuel idx p h sp : Nat) (s : MirState)
    (hslot : s.scopes.getD idx none = none)
    (hdata : mir.scopes.getD idx default = ⟨some p, sp⟩)
    (hparent : s.scopes.getD p none = some h) :
    (hv idx = false ∧ h ≠ fn →
      make_mir_scope mir hv fn (fuel + 1) idx s =
        { s with scopes := s.scopes.set idx (some h) }) ∧
    (hv idx = false ∧ h = fn →
      make_mir_scope mir hv fn (fuel + 1) idx s =
        { counter := s.counter + 1,
          created := (s.counter, h, sp) :: s.created,
          scopes := s.scopes.set idx (some s.counter) }) := by
  have hmemo : ¬ (s.scopes.getD idx none).isSome = true := by
    rw [hslot]; simp
  have hrec : make_mir_scope mir hv fn fuel p s = s :=
    make_mir_scope_memo mir hv fn fuel p s (by rw [hparent]; rfl)
  constructor
  · rintro ⟨h1, h2⟩
    rw [make_mir_scope_eq, if_neg hmemo, hdata]
    simp only [hrec, hparent, Option.getD_some]
    rw [if_pos ⟨h1, h2⟩]
  · rintro ⟨h1, h2⟩
    subst h2
    rw [make_mir_scope_eq, if_neg hmemo, hdata]
    simp only [hrec, hparent, Option.getD_some]
    rw [if_neg (fun hc => hc.2 rfl)]

/-- Witness for C4: a two-scope tree whose root is resolved; the empty
child aliases the root's non-function handle in the first configuration
and is freshly materialized when the parent's handle is the function
handle in the second. -/
theorem claim_C4_witness :
    (make_mir_scope ⟨[⟨none, 0⟩, ⟨some 0, 9⟩], []⟩ (fun _ => false) 5 1 1
        ⟨6, [], [some 4, none]⟩ =
      { counter := 6, created := [], scopes := [some 4, some 4] }) ∧
    (make_mir_scope ⟨[⟨none, 0⟩, ⟨some 0, 9⟩], []⟩ (fun _ => false) 5 1 1
        ⟨6, [], [some 5, none]⟩ =
      { counter := 7, created := [(6, 5, 9)], scopes := [some 5, some 6] }) := by
  constructor
  · have := (claim_C4 ⟨[⟨none, 0⟩, ⟨some 0, 9⟩], []⟩ (fun _ => false) 5 0 1 0 4 9
      ⟨6, [], [some 4, none]⟩ (by decide) (by decide) (by decide)).1 ⟨rfl, by decide⟩
    exact this
  · have := (claim_C4 ⟨[⟨none, 0⟩, ⟨some 0, 9⟩], []⟩ (fun _ => false) 5 0 1 0 5 9
      ⟨6, [], [some 5, none]⟩ (by decide) (by decide) (by decide)).2 ⟨rfl, rfl⟩
    exact this

/-- C5: with debug info disabled or absent, `create_mir_scopes` returns a
table of length `mir.scopes.length` whose slots are all null, and makes
zero calls to the handle-creation primitive (empty creation log). -/
theorem claim_C5 (mir : Mir) :
    (create_mir_scopes mir .debugInfoDisabled).scopes
        = List.replicate mir.scopes.length none ∧
    (create_mir_scopes mir .functionWithoutDebugInfo).scopes
        = List.replicate mir.scopes.length none ∧
    (create_mir_scopes mir .debugInfoDisabled).scopes.length = mir.scopes.length ∧
    (create_mir_scopes mir .functionWithoutDebugInfo).scopes.length
        = mir.scopes.length ∧
    (create_mir_scopes mir .debugInfoDisabled).created = [] ∧
    (create_mir_scopes mir .functionWithoutDebugInfo).created = [] := by
  refine ⟨rfl, rfl, ?_, ?_, rfl, rfl⟩ <;> simp [create_mir_scopes]

/-- C8: slots of the resolved table are write-once — a slot already
holding a handle keeps exactly that handle across any further resolver
call — and on a well-formed scope tree every filled slot of the finished
table holds the function handle (parentless root), its parent's stored
handle (an ancestor's), or a handle freshly created for that scope. -/
theorem claim_C8 :
    (∀ (mir : Mir) (hv : Nat → Bool) (fn fuel idx : Nat) (s : MirState) (i v : Nat),
      s.scopes.getD i none = some v →
      (make_mir_scope mir hv fn fuel idx s).scopes.getD i none = some v) ∧
    (∀ (mir : Mir) (fn : Nat), MirWF mir →
      SlotInv mir fn (create_mir_scopes mir (.regularContext fn))) := by
  constructor
  · exact fun mir hv fn fuel idx s i v h => make_mir_scope_mono mir hv fn fuel idx s i v h
  · intro mir fn hwf
    show SlotInv mir fn
      ((List.range mir.scopes.length).foldl
        (fun s idx => make_mir_scope mir (has_variables mir) fn mir.scopes.length idx s)
        { counter := fn + 1, created := [],
          scopes := List.replicate mir.scopes.length none })
    refine foldl_make_mir_scope_inv mir (has_variables mir) fn hwf _ _
      (fun x hx => List.mem_range.1 hx) (by simp) ?_
    intro i v hv2
    rw [getD_replicate_none] at hv2
    cases hv2

/-- Witness for C8 on a concrete two-scope tree: a pre-filled slot keeps
its handle across a resolver call, and the finished table of a well-formed
tree satisfies the slot invariant. -/
theorem claim_C8_witness :
    (make_mir_scope ⟨[⟨none, 0⟩, ⟨some 0, 9⟩], [1]⟩ (fun _ => false) 5 2 1
        ⟨6, [], [some 7, none]⟩).scopes.getD 0 none = some 7 ∧
    SlotInv ⟨[⟨none, 0⟩, ⟨some 0, 9⟩], [1]⟩ 5
      (create_mir_scopes ⟨[⟨none, 0⟩, ⟨some 0, 9⟩], [1]⟩ (.regularContext 5)) := by
  constructor
  · exact claim_C8.1 _ _ 5 2 1 _ 0 7 (by decide)
  · refine claim_C8.2 _ 5 ?_
    intro i p hp
    match i with
    | 0 => simp [List.getD] at hp
    | 1 =>
      simp [List.getD] at hp
      omega
    | n + 2 => simp [List.getD] at hp
